import Mathlib

/-
  Verification of the core financial-analytics and visual-state engine of the
  mockexchange-deck dashboard, shallowly embedded in Lean 4.

  Decimal/float quantities are modelled as exact rationals (ℚ); Python dicts
  are modelled as association lists in insertion order; exceptions
  (`KeyError`, `ValueError`) are modelled with `Except String`; `None` is
  modelled with `Option`.
-/

namespace MockexchangeDeck

/-! ## Shared numeric helpers -/

/-- Round to the nearest integer, ties to even: the semantics of the built-in
Python function used as `round(x)` (and of `round(x, d)` after scaling by
`10 ^ d`). -/
def roundHalfEven (q : ℚ) : ℤ :=
  let f := ⌊q⌋
  let r := q - f
  if r < 1/2 then f
  else if 1/2 < r then f + 1
  else if f % 2 = 0 then f else f + 1

/-- `math.floor(math.log10 q)` for a positive rational `q`, computed exactly:
the unique `e` with `10 ^ e ≤ q < 10 ^ (e + 1)`. -/
def log10Floor (q : ℚ) : ℤ :=
  let e0 : ℤ := (Nat.log 10 q.num.natAbs : ℤ) - (Nat.log 10 q.den : ℤ)
  if (10 : ℚ) ^ e0 ≤ q then e0 else e0 - 1

/-! ## Trade Aggregator — `src/app/services/api.py`, `get_trades_overview` -/

namespace Api

/-- One side of the `/overview/trades` payload: each metric maps a base asset
to a map from quote asset to a numeric value (`{"ADA": {"USDT": "…"}, …}`). -/
structure SideBlock where
  count    : List (String × List (String × ℚ))
  amount   : List (String × List (String × ℚ))
  notional : List (String × List (String × ℚ))
  fee      : List (String × List (String × ℚ))
  deriving Repr, DecidableEq

/-- The raw `/overview/trades` payload. `none` models a side whose key is
absent, or present as a falsy (empty) dict: in both cases the source skips
the side (`raw.get(s, {})` followed by `if not block: continue`). -/
structure RawTrades where
  buy  : Option SideBlock
  sell : Option SideBlock
  deriving Repr, DecidableEq

/-- `_sum_metric(side_block, metric, last_prices)` from `get_trades_overview`:
walk one metric map, keep only entries for the configured quote asset, and
either sum the values directly or (for the `amount` metric) mark-to-market
via `last_prices`, flagging any base asset without a resolvable price. -/
def sumMetric (quote : String) (lastPrices : List (String × ℚ))
    (isAmount : Bool) (m : List (String × List (String × ℚ))) : ℚ × Bool :=
  m.foldl
    (fun acc entry =>
      entry.2.foldl
        (fun acc2 qv =>
          if qv.1 ≠ quote then acc2
          else if isAmount then
            match lastPrices.lookup entry.1 with
            | none => (acc2.1, true)
            | some p => (acc2.1 + qv.2 * p, acc2.2)
          else (acc2.1 + qv.2, acc2.2))
        acc)
    (0, false)

/-- The per-side summary dict built for a processed (non-empty) side. -/
structure SideSummary where
  count : ℚ
  amount_value : ℚ
  amount_value_incomplete : Bool
  notional : ℚ
  fee : ℚ
  deriving Repr, DecidableEq

/-- Summary of one side block, mirroring the four `_sum_metric` calls. -/
def mkSideSummary (quote : String) (lastPrices : List (String × ℚ))
    (b : SideBlock) : SideSummary :=
  { count := (sumMetric quote lastPrices false b.count).1
    amount_value := (sumMetric quote lastPrices true b.amount).1
    amount_value_incomplete := (sumMetric quote lastPrices true b.amount).2
    notional := (sumMetric quote lastPrices false b.notional).1
    fee := (sumMetric quote lastPrices false b.fee).1 }

/-- The grand-total dict `out["TOTAL"]`. -/
structure TotalSummary where
  count : ℚ
  amount_value : ℚ
  notional : ℚ
  fee : ℚ
  amount_value_incomplete : Bool
  deriving Repr, DecidableEq

/-- The full aggregation result: `out["BUY"]`, `out["SELL"]` (`none` models a
side left as the empty dict `{}`), and `out["TOTAL"]`. -/
structure Overview where
  buy : Option SideSummary
  sell : Option SideSummary
  total : TotalSummary
  deriving Repr, DecidableEq

/-- `out.get(side, {}).get(k, 0)`: a numeric field of a possibly-empty side
dict, defaulting to `0`. -/
def sideGet (o : Option SideSummary) (f : SideSummary → ℚ) : ℚ :=
  match o with
  | none => 0
  | some s => f s

/-- The incompleteness flag of a possibly-empty side dict, read as `false`
when the side is empty. -/
def sideFlag (o : Option SideSummary) : Bool :=
  match o with
  | none => false
  | some s => s.amount_value_incomplete

/-- `bool(out["BUY"]["amount_value_incomplete"] or out["SELL"]["amount_value_incomplete"])`:
direct indexing raises `KeyError` on an empty side dict, except that the `or`
short-circuits when the BUY flag is already true. -/
def totalIncomplete (buyS sellS : Option SideSummary) : Except String Bool :=
  match buyS with
  | none => .error "KeyError: amount_value_incomplete"
  | some sb =>
    if sb.amount_value_incomplete then .ok true
    else
      match sellS with
      | none => .error "KeyError: amount_value_incomplete"
      | some ss => .ok ss.amount_value_incomplete

/-- The aggregation core of `get_trades_overview` (the HTTP fetch and the
price lookup are external collaborators, passed in as `lastPrices`). -/
def getTradesOverview (quote : String) (lastPrices : List (String × ℚ))
    (raw : RawTrades) : Except String Overview :=
  let buyS := raw.buy.map (mkSideSummary quote lastPrices)
  let sellS := raw.sell.map (mkSideSummary quote lastPrices)
  match totalIncomplete buyS sellS with
  | .error e => .error e
  | .ok inc =>
    .ok
      { buy := buyS
        sell := sellS
        total :=
          { count := sideGet buyS SideSummary.count + sideGet sellS SideSummary.count
            amount_value :=
              sideGet buyS SideSummary.amount_value + sideGet sellS SideSummary.amount_value
            notional := sideGet buyS SideSummary.notional + sideGet sellS SideSummary.notional
            fee := sideGet buyS SideSummary.fee + sideGet sellS SideSummary.fee
            amount_value_incomplete := inc } }

/-- A concrete payload with one BUY trade and one SELL trade
(the spec scenario: BUY notional 100 fee 1, SELL notional 60 fee 0.5). -/
def rawBoth : RawTrades :=
  { buy := some
      { count := [("BTC", [("USDT", 1)])]
        amount := [("BTC", [("USDT", 2)])]
        notional := [("BTC", [("USDT", 100)])]
        fee := [("BTC", [("USDT", 1)])] }
    sell := some
      { count := [("ETH", [("USDT", 1)])]
        amount := [("ETH", [("USDT", 3)])]
        notional := [("ETH", [("USDT", 60)])]
        fee := [("ETH", [("USDT", 1/2)])] } }

/-- A concrete payload in which only BUY has trades and the SELL key is
absent (so the SELL side is never materialized). -/
def rawBuyOnly : RawTrades :=
  { buy := some
      { count := [("BTC", [("USDT", 1)])]
        amount := [("BTC", [("USDT", 2)])]
        notional := [("BTC", [("USDT", 100)])]
        fee := [("BTC", [("USDT", 1)])] }
    sell := none }

/-- The concrete price map used by the witnesses. -/
def pricesBTCETH : List (String × ℚ) := [("BTC", 50), ("ETH", 20)]

/-- The overview produced for `rawBoth`. -/
def outBoth : Overview :=
  { buy := some
      { count := 1, amount_value := 100, amount_value_incomplete := false
        notional := 100, fee := 1 }
    sell := some
      { count := 1, amount_value := 60, amount_value_incomplete := false
        notional := 60, fee := 1/2 }
    total :=
      { count := 2, amount_value := 160, notional := 160, fee := 3/2
        amount_value_incomplete := false } }

end Api

/-! ## Multiples Calculator — `src/app/_pages/performance.py` (`render`) and
`src/app/_pages/_helpers.py` (`_display_performance_details`) -/

namespace Performance

/-- All derived capital/performance figures: the `Option ℚ` fields are the
quantities guarded by a zero/negative-denominator check (`None` in Python). -/
structure Metrics where
  netInvestment : ℚ
  grossEarnings : ℚ
  netEarnings : ℚ
  rvpiGross : Option ℚ
  dpiGross : Option ℚ
  tvpiGross : Option ℚ
  grossRoiOnCost : Option ℚ
  netRoiOnCost : Option ℚ
  grossRoiOnValue : Option ℚ
  netRoiOnValue : Option ℚ
  deriving Repr, DecidableEq

/-- The multiples/ROI computation: `render` derives net investment, earnings
and the gross multiples (RVPI/DPI/TVPI, guarded by `paid_in_capital > 0`,
with TVPI present only when both terms are), and
`_display_performance_details` derives the four ROI figures (guarded by
`net_investment > 0` resp. `equity > 0`). -/
def computeMetrics (equity deposits withdrawals totalPaidFees : ℚ) : Metrics :=
  let paid_in_capital := deposits
  let distributions := withdrawals
  let net_investment := paid_in_capital - distributions
  let gross_earnings := equity - net_investment
  let net_earnings := gross_earnings - totalPaidFees
  let rvpi_gross := if paid_in_capital > 0 then some (equity / paid_in_capital) else none
  let dpi_gross := if paid_in_capital > 0 then some (distributions / paid_in_capital) else none
  let tvpi_gross :=
    match dpi_gross, rvpi_gross with
    | some d, some r => some (d + r)
    | _, _ => none
  { netInvestment := net_investment
    grossEarnings := gross_earnings
    netEarnings := net_earnings
    rvpiGross := rvpi_gross
    dpiGross := dpi_gross
    tvpiGross := tvpi_gross
    grossRoiOnCost := if net_investment > 0 then some (gross_earnings / net_investment) else none
    netRoiOnCost := if net_investment > 0 then some (net_earnings / net_investment) else none
    grossRoiOnValue := if equity > 0 then some (gross_earnings / equity) else none
    netRoiOnValue := if equity > 0 then some (net_earnings / equity) else none }

end Performance

/-! ## Rate Normalizer — `src/app/_pages/_helpers.py`,
`get_tempo_avg_trade_summary` -/

namespace Helpers

/-- One row of the raw orders dataframe (the columns the function reads). -/
structure OrderRow where
  side : String
  actual_notion : ℚ
  actual_fee : ℚ
  ts_update : ℚ
  deriving Repr, DecidableEq

/-- One aggregated rate row (the three aggregated columns). -/
structure RateEntry where
  total_notional : ℚ
  order_count : ℚ
  total_fee : ℚ
  deriving Repr, DecidableEq

/-- `groupby("side").agg(...)` restricted to one side; `.reindex(sides,
fill_value=0)` makes a side with no rows an all-zero entry. -/
def aggSide (rows : List OrderRow) (s : String) : RateEntry :=
  let rs := rows.filter (fun r => r.side = s)
  { total_notional := (rs.map OrderRow.actual_notion).sum
    order_count := (rs.length : ℚ)
    total_fee := (rs.map OrderRow.actual_fee).sum }

/-- `df * 3600 / timespan`: conversion of raw sums to per-hour rates. -/
def perHour (timespan : ℚ) (e : RateEntry) : RateEntry :=
  { total_notional := e.total_notional * 3600 / timespan
    order_count := e.order_count * 3600 / timespan
    total_fee := e.total_fee * 3600 / timespan }

/-- `df * 24`: conversion of per-hour rates to per-day rates. -/
def times24 (e : RateEntry) : RateEntry :=
  { total_notional := e.total_notional * 24
    order_count := e.order_count * 24
    total_fee := e.total_fee * 24 }

/-- Columnwise sum of two rate entries (the `"global"` row is built by
summing each column of the aggregated frame). -/
def addEntry (a b : RateEntry) : RateEntry :=
  { total_notional := a.total_notional + b.total_notional
    order_count := a.order_count + b.order_count
    total_fee := a.total_fee + b.total_fee }

/-- The `"buy"`, `"sell"` and `"global"` entries of the returned summary. -/
structure TempoSummary where
  buy : RateEntry
  sell : RateEntry
  globalEntry : RateEntry
  deriving Repr, DecidableEq

/-- `get_tempo_avg_trade_summary(df_raw, equity)`: `none` models the
undefined result on an empty frame (no first record). `now` stands for
`time.time()`. Orders with non-positive `actual_notion` are dropped, the
per-side sums are scaled to hourly rates, scaled again to daily rates when
the total hourly notional is below `equity / 10`, and the global entry sums
the two sides of the final frame. -/
def getTempoAvgTradeSummary (now : ℚ) (rows : List OrderRow) (equity : ℚ) :
    Option (TempoSummary × String) :=
  match (rows.map OrderRow.ts_update).min? with
  | none => none
  | some mn =>
    let start_time := mn / 1000
    let timespan := now - start_time
    let filt := rows.filter (fun r => 0 < r.actual_notion)
    let buyH := perHour timespan (aggSide filt "buy")
    let sellH := perHour timespan (aggSide filt "sell")
    if buyH.total_notional + sellH.total_notional < equity / 10 then
      some ({ buy := times24 buyH, sell := times24 sellH
              globalEntry := addEntry (times24 buyH) (times24 sellH) }, "day")
    else
      some ({ buy := buyH, sell := sellH
              globalEntry := addEntry buyH sellH }, "h")

/-- The single-row orders frame used by the C5 witness: one executed BUY
order of notional 100 and fee 1, updated at epoch-millisecond 3600000. -/
def oneBuyRow : List OrderRow :=
  [{ side := "buy", actual_notion := 100, actual_fee := 1, ts_update := 3600000 }]

end Helpers

/-! ## Reconciliation Detector — `src/app/_pages/_helpers.py`,
`_display_portfolio_details` -/

namespace Portfolio

/-- One field access performed while building the metric specs: a lookup in
`balance_summary`, in `orders_summary`, or in the `mismatch` map. -/
inductive FieldReq where
  | bal (f : String)
  | ord (f : String)
  | mis (f : String)
  deriving Repr, DecidableEq

/-- The name of the field a request asks for. -/
def FieldReq.field : FieldReq → String
  | .bal f => f
  | .ord f => f
  | .mis f => f

/-- The bracket accesses of the `advanced_display` branch of
`_display_portfolio_details`, in Python evaluation order (specs1, specs2,
specs3). -/
def portfolioRequests : List FieldReq :=
  [ .bal "total_equity", .bal "total_free_value",
    .bal "total_frozen_value", .mis "total_frozen_value",
    .ord "total_frozen_value", .mis "total_frozen_value",
    .bal "cash_total_value", .bal "cash_free_value",
    .bal "cash_frozen_value", .mis "cash_frozen_value",
    .ord "cash_frozen_value", .mis "cash_frozen_value",
    .bal "assets_total_value", .bal "assets_free_value",
    .bal "assets_frozen_value", .mis "assets_frozen_value",
    .ord "assets_frozen_value", .mis "assets_frozen_value" ]

/-- One dict subscript `summary[field]` / `mismatch[field]`: a missing key
raises `KeyError(field)`. -/
def reqLookup (bal ord : List (String × ℚ)) (mis : List (String × Bool)) :
    FieldReq → Except String (ℚ ⊕ Bool)
  | .bal f =>
    match bal.lookup f with
    | some v => .ok (.inl v)
    | none => .error f
  | .ord f =>
    match ord.lookup f with
    | some v => .ok (.inl v)
    | none => .error f
  | .mis f =>
    match mis.lookup f with
    | some b => .ok (.inr b)
    | none => .error f

/-- Whether a requested field is present in the map it is requested from. -/
def reqPresent (bal ord : List (String × ℚ)) (mis : List (String × Bool))
    (r : FieldReq) : Bool :=
  match r with
  | .bal f => (bal.lookup f).isSome
  | .ord f => (ord.lookup f).isSome
  | .mis f => (mis.lookup f).isSome

/-- Perform a sequence of dict subscripts in order, collecting the values;
the first missing key aborts the whole computation with its `KeyError`. -/
def extractAll (bal ord : List (String × ℚ)) (mis : List (String × Bool)) :
    List FieldReq → Except String (List (ℚ ⊕ Bool))
  | [] => .ok []
  | r :: rs =>
    match reqLookup bal ord mis r with
    | .error f => .error f
    | .ok v =>
      match extractAll bal ord mis rs with
      | .error f => .error f
      | .ok vs => .ok (v :: vs)

/-- The field-extraction step of `_display_portfolio_details` with
`advanced_display = True`: every value the spec grid reads, in evaluation
order. -/
def displayPortfolioDetailsFields (bal ord : List (String × ℚ))
    (mis : List (String × Bool)) : Except String (List (ℚ ⊕ Bool)) :=
  extractAll bal ord mis portfolioRequests

end Portfolio

/-! ## Aging Palette Engine — `src/app/_pages/_colors.py` and its older copy
`src/app/_pages/_row_colors.py` -/

namespace ColorDefs

/-- `int(c, 16)` for one hex digit (the inputs are always valid hex). -/
def hexDigitVal (c : Char) : ℕ :=
  if '0' ≤ c ∧ c ≤ '9' then c.toNat - '0'.toNat
  else if 'a' ≤ c ∧ c ≤ 'f' then c.toNat - 'a'.toNat + 10
  else if 'A' ≤ c ∧ c ≤ 'F' then c.toNat - 'A'.toNat + 10
  else 0

/-- `int(s, 16)` for a two-character hex slice. -/
def hexPairVal (c1 c2 : Char) : ℕ := 16 * hexDigitVal c1 + hexDigitVal c2

/-- The `(R, G, B)` channels of a `"#rrggbb"` color string (`int(c0[1:3],
16)`, `int(c0[3:5], 16)`, `int(c0[5:7], 16)`); `(0, 0, 0)` on a string too
short to slice (Python would raise, but every palette color is well
formed). -/
def channels (s : String) : ℕ × ℕ × ℕ :=
  match s.data with
  | _ :: r1 :: r2 :: g1 :: g2 :: b1 :: b2 :: _ =>
    (hexPairVal r1 r2, hexPairVal g1 g2, hexPairVal b1 b2)
  | _ => (0, 0, 0)

/-- `f"{n:02x}"` for a channel value below 256. -/
def toHex2 (n : ℕ) : List Char := [Nat.digitChar (n / 16 % 16), Nat.digitChar (n % 16)]

/-- `_color_interp(c0, t)` (textually identical in `_colors.py` and
`_row_colors.py`): darken a hex color toward black by fraction `t`,
per channel `out = round(channel * (1 - t))`. -/
def colorInterp (c0 : String) (t : ℚ) : String :=
  let ch := channels c0
  let r := roundHalfEven ((ch.1 : ℚ) * (1 - t))
  let g := roundHalfEven ((ch.2.1 : ℚ) * (1 - t))
  let b := roundHalfEven ((ch.2.2 : ℚ) * (1 - t))
  String.mk ('#' :: (toHex2 r.toNat ++ toHex2 g.toNat ++ toHex2 b.toNat))

/-- `contrast_text_color(bg_hex)` (textually identical in both files): strip
leading `#`, expand 3-digit shorthand, compute the YIQ luminance `(R*299 +
G*587 + B*114) / 1000` and return black iff it is at least 128. -/
def contrastTextColor (bg : String) : String :=
  let h := bg.data.dropWhile (fun c => c = '#')
  let h2 := if h.length = 3 then h.foldr (fun c acc => c :: c :: acc) [] else h
  match h2 with
  | r1 :: r2 :: g1 :: g2 :: b1 :: b2 :: _ =>
    let r := hexPairVal r1 r2
    let g := hexPairVal g1 g2
    let b := hexPairVal b1 b2
    let yiq : ℚ := ((r * 299 + g * 587 + b * 114 : ℕ) : ℚ) / 1000
    if 128 ≤ yiq then "#000000" else "#ffffff"
  | _ => "#000000"

/-- `str(row["Status"]).lower().replace(" ", "_")`: lower-case the status
and turn spaces into underscores (both per-character maps). -/
def normalizeStatus (s : String) : String :=
  String.mk (s.data.map (fun c =>
    let lc := c.toLower
    if lc = ' ' then '_' else lc))

/-- One row handed to the Styler: `updated` is the parsed `"Updated"`
timestamp in epoch seconds, `none` when the column is missing or the value
unparsable (the `try`/`except` in the source); `width` is `len(row)`. -/
structure Row where
  updated : Option ℚ
  status : String
  width : ℕ
  deriving Repr, DecidableEq

end ColorDefs

namespace Colors

open ColorDefs

/-- The base background palette `_BG0` of `src/app/_pages/_colors.py`. -/
def BG0 : List (String × String) :=
  [("new", "#aa55ff"), ("partially_filled", "#11AAFF"), ("filled", "#00ff00"),
   ("partially_canceled", "#fff700"), ("canceled", "#ff5555"),
   ("rejected", "#ff5555"), ("expired", "#ff5555")]

/-- Bucket `j` of the background palette built by
`_create_color_rows_degradation(levels)` in `_colors.py`: bucket 0 is the
base palette, bucket `levels - 1` is solid black, intermediate buckets
interpolate each base color toward black by `j / (levels - 1)`. -/
def bgRows (levels j : ℕ) : List (String × String) :=
  if j = 0 then BG0
  else if j = levels - 1 then BG0.map (fun p => (p.1, "#000000"))
  else BG0.map (fun p => (p.1, colorInterp p.2 ((j : ℚ) / ((levels - 1 : ℕ) : ℚ))))

/-- Bucket `j` of the foreground palette: the contrast color of each
background entry. -/
def fgRows (levels j : ℕ) : List (String × String) :=
  (bgRows levels j).map (fun p => (p.1, contrastTextColor p.2))

/-- `_create_color_rows_degradation(levels)` in `_colors.py`: raises
`ValueError` when `levels < 2`, otherwise returns the background and
foreground palette tables (dicts keyed by bucket `0 .. levels - 1`). -/
def createColorRowsDegradation (levels : ℕ) :
    Except String ((ℕ → List (String × String)) × (ℕ → List (String × String))) :=
  if levels < 2 then .error "ValueError: N_VISUAL_DEGRADATIONS must be at least 2"
  else .ok (bgRows levels, fgRows levels)

/-- `_row_style(row, levels=..., fresh_window_s=...)` in `_colors.py`.
`now` stands for `time.time()`. A missing/unparsable timestamp, a bucket at
or past `levels`, or a status key outside the palette all yield the
unstyled row `[""] * len(row)`; a negative bucket would subscript the
palette dict at a missing key and raise `KeyError`. -/
def rowStyle (now : ℚ) (row : Row) (levels : ℕ) (freshWin : ℚ) :
    Except String (List String) :=
  match createColorRowsDegradation levels with
  | .error e => .error e
  | .ok maps =>
    match row.updated with
    | none => .ok (List.replicate row.width "")
    | some t =>
      let age := now - t
      let bucket : ℤ := ⌊age / freshWin⌋
      if (levels : ℤ) ≤ bucket then .ok (List.replicate row.width "")
      else if bucket < 0 then .error "KeyError: bucket"
      else
        let bgMap := maps.1 bucket.toNat
        let fgMap := maps.2 bucket.toNat
        let key := normalizeStatus row.status
        let bg := (bgMap.lookup key).getD ""
        if bg = "" then .ok (List.replicate row.width "")
        else
          let fg := (fgMap.lookup key).getD (contrastTextColor bg)
          .ok (List.replicate row.width ("background-color:" ++ bg ++ ";color:" ++ fg))

end Colors

namespace RowColors

open ColorDefs

/-- The base background palette `_BG0` of `src/app/_pages/_row_colors.py`
(note `"partially_canceled"` is red here, not yellow, and sits in a
different position). -/
def BG0 : List (String × String) :=
  [("new", "#aa55ff"), ("partially_filled", "#11AAFF"), ("filled", "#00ff00"),
   ("canceled", "#ff5555"), ("partially_canceled", "#ff5555"),
   ("rejected", "#ff5555"), ("expired", "#ff5555")]

/-- Bucket `j` of the background palette built by
`_create_color_rows_degradation(levels)` in `_row_colors.py`. -/
def bgRows (levels j : ℕ) : List (String × String) :=
  if j = 0 then BG0
  else if j = levels - 1 then BG0.map (fun p => (p.1, "#000000"))
  else BG0.map (fun p => (p.1, colorInterp p.2 ((j : ℚ) / ((levels - 1 : ℕ) : ℚ))))

/-- Bucket `j` of the foreground palette of `_row_colors.py`. -/
def fgRows (levels j : ℕ) : List (String × String) :=
  (bgRows levels j).map (fun p => (p.1, contrastTextColor p.2))

/-- `_create_color_rows_degradation(levels)` in `_row_colors.py`. -/
def createColorRowsDegradation (levels : ℕ) :
    Except String ((ℕ → List (String × String)) × (ℕ → List (String × String))) :=
  if levels < 2 then .error "ValueError: N_VISUAL_DEGRADATIONS must be at least 2"
  else .ok (bgRows levels, fgRows levels)

/-- `_row_style(...)` in `_row_colors.py`: same flow as the `_colors.py`
copy; the foreground is chosen with `if key in fg_map` instead of
`.get(key, ...)` (same semantics, mirrored as written). -/
def rowStyle (now : ℚ) (row : Row) (levels : ℕ) (freshWin : ℚ) :
    Except String (List String) :=
  match createColorRowsDegradation levels with
  | .error e => .error e
  | .ok maps =>
    match row.updated with
    | none => .ok (List.replicate row.width "")
    | some t =>
      let age := now - t
      let bucket : ℤ := ⌊age / freshWin⌋
      if (levels : ℤ) ≤ bucket then .ok (List.replicate row.width "")
      else if bucket < 0 then .error "KeyError: bucket"
      else
        let bgMap := maps.1 bucket.toNat
        let fgMap := maps.2 bucket.toNat
        let key := normalizeStatus row.status
        let bg := (bgMap.lookup key).getD ""
        if bg = "" then .ok (List.replicate row.width "")
        else
          let fg :=
            match fgMap.lookup key with
            | some v => v
            | none => contrastTextColor bg
          .ok (List.replicate row.width ("background-color:" ++ bg ++ ";color:" ++ fg))

end RowColors

namespace ColorDefs

/-- Strict per-channel darkening of `c` relative to `d`: every RGB channel
of `c` strictly below the corresponding channel of `d`. -/
def strictlyDarker (c d : String) : Prop :=
  (channels c).1 < (channels d).1 ∧
  (channels c).2.1 < (channels d).2.1 ∧
  (channels c).2.2 < (channels d).2.2

instance (c d : String) : Decidable (strictlyDarker c d) := by
  unfold strictlyDarker; infer_instance

end ColorDefs

/-! ## Precision Formatter — `src/app/_pages/_helpers.py`,
`_format_significant_float` -/

namespace Format

/-- Decimal digits of a natural number, most significant first. -/
def natDigits (n : ℕ) : List Char :=
  if h : n < 10 then [Nat.digitChar n]
  else natDigits (n / 10) ++ [Nat.digitChar (n % 10)]
  termination_by n
  decreasing_by exact Nat.div_lt_self (by omega) (by norm_num)

/-- The last `d` decimal digits of a natural number, zero-padded on the
left to exactly `d` characters. -/
def padDigits : ℕ → ℕ → List Char
  | 0, _ => []
  | d + 1, n => padDigits d (n / 10) ++ [Nat.digitChar (n % 10)]

/-- Insert a comma after every three characters of a reversed digit list:
the right-to-left grouping of `f"{n:,}"`. -/
def groupAuxRev : List Char → List Char
  | a :: b :: c :: d :: rest => a :: b :: c :: ',' :: groupAuxRev (d :: rest)
  | l => l

/-- Thousands grouping of a most-significant-first digit list. -/
def groupDigits (l : List Char) : List Char := (groupAuxRev l.reverse).reverse

/-- Fixed-point rendering of a nonnegative rational with exactly `d`
digits after the decimal point: the semantics of `round(q, d)` followed by
`f"{x:,.df}"` (with thousands separators) or `f"{x:.df}"`. -/
def fmtFixed (q : ℚ) (d : ℕ) (sep : Bool) : List Char :=
  let n := (roundHalfEven (q * 10 ^ d)).toNat
  let ip := n / 10 ^ d
  let fp := n % 10 ^ d
  (if sep then groupDigits (natDigits ip) else natDigits ip) ++
    (if d = 0 then [] else '.' :: padDigits d fp)

/-- The fixed sentinel for `None`/zero values. -/
def ZERO_DISPLAY : String := "--"

/-- `_format_significant_float(value, unity)`: `None` (and `NaN`, which has
no rational counterpart) or exact zero render the sentinel; `|v| ≥ 1`
renders with thousands separators and two decimals; `0 < |v| < 1` renders
with `2 - floor(log10 |v|) - 1` decimals (the first two significant
digits); the sign is re-attached as a `-` prefix and a non-empty unit is
appended. -/
def formatSignificantFloat (value : Option ℚ) (unity : Option String) : String :=
  match value with
  | none => ZERO_DISPLAY
  | some v =>
    if v = 0 then ZERO_DISPLAY
    else
      let abs_value := |v|
      let core :=
        if 1 ≤ abs_value then fmtFixed abs_value 2 true
        else
          fmtFixed abs_value (2 - log10Floor abs_value - 1).toNat false
      let signed := if v < 0 then '-' :: core else core
      let s := String.mk signed
      match unity with
      | none => s
      | some u => if u = "" then s else s ++ " " ++ u

end Format

/-! ## Theorems -/

namespace Api

/-- C1: whenever the trade aggregation returns an overview, each numeric
TOTAL field (count, notional, fee, amount_value) is the sum of the BUY and
SELL fields (an absent side contributing 0, exactly as `out.get(side,
{}).get(k, 0)` reads it), and `TOTAL.amount_value_incomplete` is the logical
OR of the two side flags, never a sum. -/
theorem trades_total_invariant (quote : String) (lp : List (String × ℚ))
    (raw : RawTrades) (out : Overview)
    (h : getTradesOverview quote lp raw = .ok out) :
    out.total.count = sideGet out.buy SideSummary.count + sideGet out.sell SideSummary.count ∧
    out.total.notional =
      sideGet out.buy SideSummary.notional + sideGet out.sell SideSummary.notional ∧
    out.total.fee = sideGet out.buy SideSummary.fee + sideGet out.sell SideSummary.fee ∧
    out.total.amount_value =
      sideGet out.buy SideSummary.amount_value + sideGet out.sell SideSummary.amount_value ∧
    out.total.amount_value_incomplete = (sideFlag out.buy || sideFlag out.sell) := by
  rcases raw with ⟨buy?, sell?⟩
  cases buy? with
  | none => simp [getTradesOverview, totalIncomplete] at h
  | some b =>
    cases hf : (mkSideSummary quote lp b).amount_value_incomplete with
    | true =>
      simp [getTradesOverview, totalIncomplete, hf] at h
      subst h
      simp [sideFlag, hf]
    | false =>
      cases sell? with
      | none =>
        simp [getTradesOverview, totalIncomplete, hf] at h
      | some s =>
        simp [getTradesOverview, totalIncomplete, hf] at h
        subst h
        simp [sideFlag, hf]

/-- Witness for C1: the invariant instantiated on the concrete two-sided
payload `rawBoth`. -/
theorem trades_total_invariant_witness :
    outBoth.total.count = sideGet outBoth.buy SideSummary.count + sideGet outBoth.sell SideSummary.count ∧
    outBoth.total.notional =
      sideGet outBoth.buy SideSummary.notional + sideGet outBoth.sell SideSummary.notional ∧
    outBoth.total.fee = sideGet outBoth.buy SideSummary.fee + sideGet outBoth.sell SideSummary.fee ∧
    outBoth.total.amount_value =
      sideGet outBoth.buy SideSummary.amount_value + sideGet outBoth.sell SideSummary.amount_value ∧
    outBoth.total.amount_value_incomplete = (sideFlag outBoth.buy || sideFlag outBoth.sell) :=
  trades_total_invariant "USDT" pricesBTCETH rawBoth outBoth (by
    simp [getTradesOverview, mkSideSummary, sumMetric, rawBoth, outBoth,
      pricesBTCETH, totalIncomplete, sideGet, List.lookup]
    norm_num)

/-- C2: on a payload whose SELL side has no trades (the side key absent, so
the side block is never materialized), the aggregation does not return a
zero-filled SELL summary — it raises `KeyError` at
`out["SELL"]["amount_value_incomplete"]` instead of completing. -/
theorem trades_empty_side_keyerror :
    getTradesOverview "USDT" pricesBTCETH rawBuyOnly =
      .error "KeyError: amount_value_incomplete" := by
  simp [getTradesOverview, mkSideSummary, sumMetric, rawBuyOnly,
    pricesBTCETH, totalIncomplete, sideGet, List.lookup]

end Api

namespace Performance

/-- C3: the multiples computation only ever divides behind a positivity
guard: with `paid_in_capital = 0` the RVPI, DPI and TVPI are all `None`;
with `net_investment ≤ 0` both ROI-on-cost figures are `None` (likewise
`equity ≤ 0` for ROI-on-value); and TVPI is `DPI + RVPI` exactly when both
are present, `None` otherwise — zero is never substituted for a missing
term. -/
theorem multiples_null_guards (equity deposits withdrawals fees : ℚ) :
    ((computeMetrics equity deposits withdrawals fees).rvpiGross = none ∧
     (computeMetrics equity deposits withdrawals fees).dpiGross = none ∧
     (computeMetrics equity deposits withdrawals fees).tvpiGross = none
       ∨ 0 < deposits) ∧
    ((computeMetrics equity deposits withdrawals fees).netInvestment ≤ 0 →
      (computeMetrics equity deposits withdrawals fees).grossRoiOnCost = none ∧
      (computeMetrics equity deposits withdrawals fees).netRoiOnCost = none) ∧
    (equity ≤ 0 →
      (computeMetrics equity deposits withdrawals fees).grossRoiOnValue = none ∧
      (computeMetrics equity deposits withdrawals fees).netRoiOnValue = none) ∧
    (∀ d r, (computeMetrics equity deposits withdrawals fees).dpiGross = some d →
      (computeMetrics equity deposits withdrawals fees).rvpiGross = some r →
      (computeMetrics equity deposits withdrawals fees).tvpiGross = some (d + r)) ∧
    ((computeMetrics equity deposits withdrawals fees).dpiGross = none ∨
      (computeMetrics equity deposits withdrawals fees).rvpiGross = none →
      (computeMetrics equity deposits withdrawals fees).tvpiGross = none) := by
  by_cases hpic : deposits > 0 <;>
    by_cases hni : deposits - withdrawals > 0 <;>
    by_cases heq : equity > 0 <;>
    simp [computeMetrics, hpic, hni, heq] <;>
    first
      | omega
      | (intro h; constructor <;> intro h2 <;> linarith)
      | (constructor <;> intro h2 <;> linarith)
      | linarith

/-- Witness for C3 at concrete capital snapshots: `paid_in_capital = 0`
kills the multiples, `net_investment = -5 ≤ 0` kills ROI-on-cost, and
`equity = -1 ≤ 0` kills ROI-on-value. -/
theorem multiples_null_guards_witness :
    ((computeMetrics 10 0 0 0).rvpiGross = none ∧
     (computeMetrics 10 0 0 0).dpiGross = none ∧
     (computeMetrics 10 0 0 0).tvpiGross = none) ∧
    ((computeMetrics 10 0 5 0).grossRoiOnCost = none ∧
     (computeMetrics 10 0 5 0).netRoiOnCost = none) ∧
    ((computeMetrics (-1) 0 0 0).grossRoiOnValue = none ∧
     (computeMetrics (-1) 0 0 0).netRoiOnValue = none) := by
  refine ⟨?_, ?_, ?_⟩
  · rcases (multiples_null_guards 10 0 0 0).1 with h | h
    · exact h
    · norm_num at h
  · exact (multiples_null_guards 10 0 5 0).2.1 (by norm_num [computeMetrics])
  · exact (multiples_null_guards (-1) 0 0 0).2.2.1 (by norm_num)

end Performance

namespace Helpers

/-- C5: given a strictly positive elapsed time since the first record, the
rate normalizer reports period `"day"` with every rate (notional, order
count, fee, on both sides) multiplied by 24 exactly when the summed hourly
notional is below `equity / 10`; otherwise it reports the hourly rates
unmodified with period `"h"`. In both cases the global entry is the
columnwise sum of the BUY and SELL entries of the reported period. -/
theorem tempo_avg_rate_policy (now equity mn : ℚ) (rows : List OrderRow)
    (bH sH : RateEntry)
    (hmn : (rows.map OrderRow.ts_update).min? = some mn)
    (hpos : 0 < now - mn / 1000)
    (hb : bH = perHour (now - mn / 1000) (aggSide (rows.filter (fun r => 0 < r.actual_notion)) "buy"))
    (hs : sH = perHour (now - mn / 1000) (aggSide (rows.filter (fun r => 0 < r.actual_notion)) "sell")) :
    ∃ s p, getTempoAvgTradeSummary now rows equity = some (s, p) ∧
      (bH.total_notional + sH.total_notional < equity / 10 →
        p = "day" ∧ s.buy = times24 bH ∧ s.sell = times24 sH) ∧
      (equity / 10 ≤ bH.total_notional + sH.total_notional →
        p = "h" ∧ s.buy = bH ∧ s.sell = sH) ∧
      s.globalEntry = addEntry s.buy s.sell := by
  have hmain : getTempoAvgTradeSummary now rows equity =
      if bH.total_notional + sH.total_notional < equity / 10 then
        some ({ buy := times24 bH, sell := times24 sH
                globalEntry := addEntry (times24 bH) (times24 sH) }, "day")
      else some ({ buy := bH, sell := sH, globalEntry := addEntry bH sH }, "h") := by
    subst hb hs
    simp [getTempoAvgTradeSummary, hmn]
  by_cases hc : bH.total_notional + sH.total_notional < equity / 10
  · rw [if_pos hc] at hmain
    exact ⟨_, _, hmain, fun _ => ⟨rfl, rfl, rfl⟩, fun hle => absurd hc (not_lt.mpr hle), rfl⟩
  · rw [if_neg hc] at hmain
    exact ⟨_, _, hmain, fun hlt => absurd hlt hc, fun _ => ⟨rfl, rfl, rfl⟩, rfl⟩

/-- Witness for C5: with `now = 7200 s` the timespan is one hour, the hourly
BUY notional is 100 and equity is 500, so `100 ≥ 500 / 10` and the summary
is reported per hour with a global entry summing both sides. -/
theorem tempo_avg_rate_policy_witness :
    ∃ s p, getTempoAvgTradeSummary 7200 oneBuyRow 500 = some (s, p) ∧
      ((perHour (7200 - 3600000 / 1000) (aggSide (oneBuyRow.filter (fun r => 0 < r.actual_notion)) "buy")).total_notional +
        (perHour (7200 - 3600000 / 1000) (aggSide (oneBuyRow.filter (fun r => 0 < r.actual_notion)) "sell")).total_notional <
        (500 : ℚ) / 10 →
        p = "day" ∧
        s.buy = times24 (perHour (7200 - 3600000 / 1000) (aggSide (oneBuyRow.filter (fun r => 0 < r.actual_notion)) "buy")) ∧
        s.sell = times24 (perHour (7200 - 3600000 / 1000) (aggSide (oneBuyRow.filter (fun r => 0 < r.actual_notion)) "sell"))) ∧
      ((500 : ℚ) / 10 ≤
        (perHour (7200 - 3600000 / 1000) (aggSide (oneBuyRow.filter (fun r => 0 < r.actual_notion)) "buy")).total_notional +
        (perHour (7200 - 3600000 / 1000) (aggSide (oneBuyRow.filter (fun r => 0 < r.actual_notion)) "sell")).total_notional →
        p = "h" ∧
        s.buy = perHour (7200 - 3600000 / 1000) (aggSide (oneBuyRow.filter (fun r => 0 < r.actual_notion)) "buy") ∧
        s.sell = perHour (7200 - 3600000 / 1000) (aggSide (oneBuyRow.filter (fun r => 0 < r.actual_notion)) "sell")) ∧
      s.globalEntry = addEntry s.buy s.sell :=
  tempo_avg_rate_policy 7200 500 3600000 oneBuyRow _ _
    (by simp [oneBuyRow]) (by norm_num) rfl rfl

end Helpers

namespace Portfolio

/-- A failing subscript reports the missing key and only happens when the
field is really absent from the map it was requested from. -/
theorem reqLookup_error (bal ord : List (String × ℚ)) (mis : List (String × Bool))
    (r : FieldReq) (f : String) (h : reqLookup bal ord mis r = .error f) :
    r.field = f ∧ reqPresent bal ord mis r = false := by
  cases r with
  | bal g =>
    cases hg : bal.lookup g with
    | some v => simp [reqLookup, hg] at h
    | none =>
      simp only [reqLookup, hg, Except.error.injEq] at h
      subst h
      exact ⟨rfl, by simp only [reqPresent, hg, Option.isSome_none]⟩
  | ord g =>
    cases hg : ord.lookup g with
    | some v => simp [reqLookup, hg] at h
    | none =>
      simp only [reqLookup, hg, Except.error.injEq] at h
      subst h
      exact ⟨rfl, by simp only [reqPresent, hg, Option.isSome_none]⟩
  | mis g =>
    cases hg : mis.lookup g with
    | some v => simp [reqLookup, hg] at h
    | none =>
      simp only [reqLookup, hg, Except.error.injEq] at h
      subst h
      exact ⟨rfl, by simp only [reqPresent, hg, Option.isSome_none]⟩

/-- A subscript of a present field succeeds. -/
theorem reqLookup_ok (bal ord : List (String × ℚ)) (mis : List (String × Bool))
    (r : FieldReq) (h : reqPresent bal ord mis r = true) :
    ∃ v, reqLookup bal ord mis r = .ok v := by
  cases r with
  | bal g =>
    cases hg : bal.lookup g with
    | some v => exact ⟨.inl v, by simp [reqLookup, hg]⟩
    | none =>
      simp only [reqPresent, hg, Option.isSome_none] at h
      exact Bool.noConfusion h
  | ord g =>
    cases hg : ord.lookup g with
    | some v => exact ⟨.inl v, by simp [reqLookup, hg]⟩
    | none =>
      simp only [reqPresent, hg, Option.isSome_none] at h
      exact Bool.noConfusion h
  | mis g =>
    cases hg : mis.lookup g with
    | some v => exact ⟨.inr v, by simp [reqLookup, hg]⟩
    | none =>
      simp only [reqPresent, hg, Option.isSome_none] at h
      exact Bool.noConfusion h

/-- A successful subscript means the requested field is present. -/
theorem reqLookup_ok_present (bal ord : List (String × ℚ)) (mis : List (String × Bool))
    (r : FieldReq) (v : ℚ ⊕ Bool) (h : reqLookup bal ord mis r = .ok v) :
    reqPresent bal ord mis r = true := by
  cases r with
  | bal g =>
    cases hg : bal.lookup g with
    | some w => simp [reqPresent, hg]
    | none => simp [reqLookup, hg] at h
  | ord g =>
    cases hg : ord.lookup g with
    | some w => simp [reqPresent, hg]
    | none => simp [reqLookup, hg] at h
  | mis g =>
    cases hg : mis.lookup g with
    | some w => simp [reqPresent, hg]
    | none => simp [reqLookup, hg] at h

/-- If the extraction of a request sequence fails, the reported key is one
of the requested fields and is really absent. -/
theorem extractAll_error_spec (bal ord : List (String × ℚ)) (mis : List (String × Bool))
    (reqs : List FieldReq) (f : String) (h : extractAll bal ord mis reqs = .error f) :
    ∃ r ∈ reqs, r.field = f ∧ reqPresent bal ord mis r = false := by
  induction reqs with
  | nil => simp [extractAll] at h
  | cons r rs ih =>
    cases hl : reqLookup bal ord mis r with
    | error g =>
      simp only [extractAll, hl, Except.error.injEq] at h
      subst h
      exact ⟨r, List.mem_cons_self r rs, reqLookup_error bal ord mis r g hl⟩
    | ok v =>
      cases he : extractAll bal ord mis rs with
      | error g =>
        simp only [extractAll, hl, he, Except.error.injEq] at h
        subst h
        obtain ⟨r2, hr2, hf2⟩ := ih he
        exact ⟨r2, List.mem_cons_of_mem r hr2, hf2⟩
      | ok vs => simp [extractAll, hl, he] at h

/-- The extraction of a request sequence succeeds iff every requested field
is present. -/
theorem extractAll_ok_iff (bal ord : List (String × ℚ)) (mis : List (String × Bool))
    (reqs : List FieldReq) :
    (∃ vs, extractAll bal ord mis reqs = .ok vs) ↔
      ∀ r ∈ reqs, reqPresent bal ord mis r = true := by
  induction reqs with
  | nil => simp [extractAll]
  | cons r rs ih =>
    constructor
    · rintro ⟨vs, hvs⟩
      cases hl : reqLookup bal ord mis r with
      | error g => simp [extractAll, hl] at hvs
      | ok v =>
        cases he : extractAll bal ord mis rs with
        | error g => simp [extractAll, hl, he] at hvs
        | ok vs2 =>
          intro r2 hr2
          rcases List.mem_cons.mp hr2 with rfl | hmem
          · exact reqLookup_ok_present bal ord mis r2 v hl
          · exact (ih.mp ⟨vs2, he⟩) r2 hmem
    · intro hall
      obtain ⟨v, hv⟩ := reqLookup_ok bal ord mis r (hall r (List.mem_cons_self r rs))
      obtain ⟨vs, hvs⟩ := ih.mpr (fun r2 hr2 => hall r2 (List.mem_cons_of_mem r hr2))
      exact ⟨v :: vs, by simp [extractAll, hv, hvs]⟩

/-- C9: if any field requested by the portfolio-details grid is absent from
the balance-source summary, the orders-source summary or the mismatch map,
the extraction fails with an error naming an absent requested field — in
particular it never completes (a missing field is never silently skipped or
treated as a match), and it completes exactly when every requested field is
present. -/
theorem portfolio_missing_field_error (bal ord : List (String × ℚ))
    (mis : List (String × Bool)) :
    (∀ f, displayPortfolioDetailsFields bal ord mis = .error f →
      ∃ r ∈ portfolioRequests, r.field = f ∧ reqPresent bal ord mis r = false) ∧
    ((∃ vs, displayPortfolioDetailsFields bal ord mis = .ok vs) ↔
      ∀ r ∈ portfolioRequests, reqPresent bal ord mis r = true) ∧
    (∀ r ∈ portfolioRequests, reqPresent bal ord mis r = false →
      ∃ f, displayPortfolioDetailsFields bal ord mis = .error f ∧
        ∃ r2 ∈ portfolioRequests, r2.field = f ∧ reqPresent bal ord mis r2 = false) := by
  refine ⟨fun f hf => extractAll_error_spec bal ord mis portfolioRequests f hf,
    extractAll_ok_iff bal ord mis portfolioRequests, fun r hr hnp => ?_⟩
  cases hres : displayPortfolioDetailsFields bal ord mis with
  | ok vs =>
    have := (extractAll_ok_iff bal ord mis portfolioRequests).mp ⟨vs, hres⟩ r hr
    simp [hnp] at this
  | error f =>
    exact ⟨f, rfl, extractAll_error_spec bal ord mis portfolioRequests f hres⟩

/-- Witness for C9: with all three maps empty, the very first requested
field (`total_equity`) is absent and the extraction fails naming an absent
requested field. -/
theorem portfolio_missing_field_witness :
    ∃ f, displayPortfolioDetailsFields [] [] [] = .error f ∧
      ∃ r2 ∈ portfolioRequests, r2.field = f ∧ reqPresent [] [] [] r2 = false :=
  (portfolio_missing_field_error [] [] []).2.2 (.bal "total_equity")
    (by simp [portfolioRequests]) (by simp [reqPresent])

end Portfolio

namespace ColorDefs

/-- Looking up a key in a value-mapped association list maps the lookup. -/
theorem lookup_map_value {β γ : Type} (l : List (String × β)) (f : β → γ) (k : String) :
    (l.map (fun p => (p.1, f p.2))).lookup k = (l.lookup k).map f := by
  induction l with
  | nil => rfl
  | cons p ps ih =>
    rcases p with ⟨a, b⟩
    cases hpk : (k == a) <;> simp [List.lookup, hpk, ih]

/-- A hex digit value is below 16. -/
theorem hexDigitVal_lt (c : Char) : hexDigitVal c < 16 := by
  unfold hexDigitVal
  split_ifs with h1 h2 h3
  · obtain ⟨ha, hb⟩ := h1
    have ha2 : 48 ≤ c.toNat := by
      have := Char.le_def.mp ha; simpa [Char.toNat] using this
    have hb2 : c.toNat ≤ 57 := by
      have := Char.le_def.mp hb; simpa [Char.toNat] using this
    have h0 : Char.toNat '0' = 48 := rfl
    omega
  · obtain ⟨ha, hb⟩ := h2
    have ha2 : 97 ≤ c.toNat := by
      have := Char.le_def.mp ha; simpa [Char.toNat] using this
    have hb2 : c.toNat ≤ 102 := by
      have := Char.le_def.mp hb; simpa [Char.toNat] using this
    have h0 : Char.toNat 'a' = 97 := rfl
    omega
  · obtain ⟨ha, hb⟩ := h3
    have ha2 : 65 ≤ c.toNat := by
      have := Char.le_def.mp ha; simpa [Char.toNat] using this
    have hb2 : c.toNat ≤ 70 := by
      have := Char.le_def.mp hb; simpa [Char.toNat] using this
    have h0 : Char.toNat 'A' = 65 := rfl
    omega
  · omega

/-- A two-digit hex value is below 256. -/
theorem hexPairVal_lt (c1 c2 : Char) : hexPairVal c1 c2 < 256 := by
  have h1 := hexDigitVal_lt c1
  have h2 := hexDigitVal_lt c2
  unfold hexPairVal
  omega

/-- `hexDigitVal` inverts `Nat.digitChar` on hex digits. -/
theorem hexDigitVal_digitChar (m : ℕ) (hm : m < 16) :
    hexDigitVal (Nat.digitChar m) = m := by
  interval_cases m <;> decide

/-- `toHex2` renders and `hexPairVal` parses back any channel value. -/
theorem hexPairVal_toHex2 (n : ℕ) (hn : n < 256) :
    ∀ c1 c2, toHex2 n = [c1, c2] → hexPairVal c1 c2 = n := by
  intro c1 c2 h
  simp only [toHex2, List.cons.injEq, and_true] at h
  obtain ⟨h1, h2⟩ := h
  subst h1
  subst h2
  rw [hexPairVal, hexDigitVal_digitChar _ (Nat.mod_lt _ (by norm_num)),
    hexDigitVal_digitChar _ (Nat.mod_lt _ (by norm_num))]
  have hd : n / 16 < 16 := Nat.div_lt_of_lt_mul (by omega)
  rw [Nat.mod_eq_of_lt hd]
  omega

/-- The rounded value is the floor or the floor plus one. -/
theorem roundHalfEven_eq_floor_or (q : ℚ) :
    roundHalfEven q = ⌊q⌋ ∨ roundHalfEven q = ⌊q⌋ + 1 := by
  simp only [roundHalfEven]
  split_ifs <;> simp

/-- Rounding a nonnegative value is nonnegative. -/
theorem roundHalfEven_nonneg (q : ℚ) (h : 0 ≤ q) : 0 ≤ roundHalfEven q := by
  rcases roundHalfEven_eq_floor_or q with hr | hr <;> rw [hr] <;>
    have := Int.floor_nonneg.mpr h <;> omega

/-- Rounding never exceeds the ceiling. -/
theorem roundHalfEven_le_ceil (q : ℚ) : roundHalfEven q ≤ ⌈q⌉ := by
  have hfc := Int.floor_le_ceil q
  simp only [roundHalfEven]
  split_ifs with h1 h2 h3
  · exact hfc
  · have hlt : (⌊q⌋ : ℚ) < q := by linarith
    have := Int.lt_ceil.mpr hlt
    omega
  · exact hfc
  · push_neg at h1
    have hlt : (⌊q⌋ : ℚ) < q := by linarith
    have := Int.lt_ceil.mpr hlt
    omega

/-- Rounding a value below a natural bound stays below the bound. -/
theorem roundHalfEven_le (q : ℚ) (n : ℕ) (h : q ≤ n) : roundHalfEven q ≤ n :=
  le_trans (roundHalfEven_le_ceil q) (Int.ceil_le.mpr (by exact_mod_cast h))

/-- Every channel parsed from a color string is below 256. -/
theorem channels_lt (s : String) :
    (channels s).1 < 256 ∧ (channels s).2.1 < 256 ∧ (channels s).2.2 < 256 := by
  unfold channels
  split
  · exact ⟨hexPairVal_lt _ _, hexPairVal_lt _ _, hexPairVal_lt _ _⟩
  · simp

/-- Parsing back a rendered `"#rrggbb"` string recovers the channels. -/
theorem channels_mk (r g b : ℕ) (hr : r < 256) (hg : g < 256) (hb : b < 256) :
    channels (String.mk ('#' :: (toHex2 r ++ toHex2 g ++ toHex2 b))) = (r, g, b) := by
  have h2 : toHex2 r = [Nat.digitChar (r / 16 % 16), Nat.digitChar (r % 16)] := rfl
  have h3 : toHex2 g = [Nat.digitChar (g / 16 % 16), Nat.digitChar (g % 16)] := rfl
  have h4 : toHex2 b = [Nat.digitChar (b / 16 % 16), Nat.digitChar (b % 16)] := rfl
  simp only [h2, h3, h4, List.cons_append, List.nil_append, channels]
  rw [hexPairVal_toHex2 r hr _ _ h2, hexPairVal_toHex2 g hg _ _ h3,
    hexPairVal_toHex2 b hb _ _ h4]

/-- The channels of an interpolated color are exactly the rounded
per-channel values `round(channel * (1 - t))`. -/
theorem channels_colorInterp (c0 : String) (t : ℚ) (h0 : 0 ≤ t) (h1 : t ≤ 1) :
    channels (colorInterp c0 t) =
      ((roundHalfEven (((channels c0).1 : ℚ) * (1 - t))).toNat,
       (roundHalfEven (((channels c0).2.1 : ℚ) * (1 - t))).toNat,
       (roundHalfEven (((channels c0).2.2 : ℚ) * (1 - t))).toNat) := by
  obtain ⟨hb1, hb2, hb3⟩ := channels_lt c0
  have hbound : ∀ c : ℕ, c < 256 → (roundHalfEven ((c : ℚ) * (1 - t))).toNat < 256 := by
    intro c hc
    have hq : (c : ℚ) * (1 - t) ≤ (c : ℕ) := by
      calc (c : ℚ) * (1 - t) ≤ (c : ℚ) * 1 :=
            mul_le_mul_of_nonneg_left (by linarith) (by positivity)
        _ = (c : ℚ) := mul_one _
    have := roundHalfEven_le ((c : ℚ) * (1 - t)) c hq
    omega
  simp only [colorInterp]
  exact channels_mk _ _ _ (hbound _ hb1) (hbound _ hb2) (hbound _ hb3)

/-- Evaluation rule for `contrast_text_color` on a six-digit hex string. -/
theorem contrastTextColor_eval (s : String) (c1 c2 c3 c4 c5 c6 : Char) (n : ℕ)
    (hs : s.data = ['#', c1, c2, c3, c4, c5, c6])
    (hc : c1 ≠ '#')
    (hn : hexPairVal c1 c2 * 299 + hexPairVal c3 c4 * 587 + hexPairVal c5 c6 * 114 = n) :
    contrastTextColor s = if 128000 ≤ n then "#000000" else "#ffffff" := by
  have hdrop : List.dropWhile (fun c => decide (c = '#')) ['#', c1, c2, c3, c4, c5, c6] =
      [c1, c2, c3, c4, c5, c6] := by
    simp [List.dropWhile, hc]
  have hcast : ((128 : ℚ) ≤
      ((hexPairVal c1 c2 : ℚ) * 299 + (hexPairVal c3 c4 : ℚ) * 587 +
        (hexPairVal c5 c6 : ℚ) * 114) / 1000) ↔ 128000 ≤ n := by
    rw [le_div_iff₀ (by norm_num)]
    have hsum : ((hexPairVal c1 c2 : ℚ) * 299 + (hexPairVal c3 c4 : ℚ) * 587 +
        (hexPairVal c5 c6 : ℚ) * 114) = (n : ℚ) := by
      exact_mod_cast congrArg (fun m : ℕ => (m : ℚ)) hn
    rw [hsum, show (128 : ℚ) * 1000 = ((128000 : ℕ) : ℚ) by norm_num, Nat.cast_le]
  simp only [contrastTextColor, hs, hdrop, List.length_cons, List.length_nil]
  norm_num
  by_cases hif : 128000 ≤ n
  · rw [if_pos (hcast.mpr hif), if_pos hif]
  · rw [if_neg (fun hx => hif (hcast.mp hx)), if_neg hif]

/-- Contrast color over white is black. -/
theorem contrast_white : contrastTextColor "#ffffff" = "#000000" := by
  rw [contrastTextColor_eval "#ffffff" 'f' 'f' 'f' 'f' 'f' 'f' 255000 rfl
    (by decide) (by decide)]
  norm_num

/-- Contrast color over black is white. -/
theorem contrast_black : contrastTextColor "#000000" = "#ffffff" := by
  rw [contrastTextColor_eval "#000000" '0' '0' '0' '0' '0' '0' 0 rfl
    (by decide) (by decide)]
  norm_num

theorem channels_aa55ff : channels "#aa55ff" = (170, 85, 255) := by decide

theorem channels_11AAFF : channels "#11AAFF" = (17, 170, 255) := by decide

theorem channels_00ff00 : channels "#00ff00" = (0, 255, 0) := by decide

theorem channels_fff700 : channels "#fff700" = (255, 247, 0) := by decide

theorem channels_ff5555 : channels "#ff5555" = (255, 85, 85) := by decide

end ColorDefs

namespace Colors

open ColorDefs

/-- C7: for every `levels ≥ 2`, bucket and status key, the foreground
palette entry is exactly the YIQ contrast color of the corresponding
background entry; in particular the contrast color over `#ffffff` is
`#000000` and over `#000000` is `#ffffff`. -/
theorem palette_foreground_contrast (levels j : ℕ) (hl : 2 ≤ levels)
    (hj : j < levels) (k : String) :
    (fgRows levels j).lookup k = ((bgRows levels j).lookup k).map contrastTextColor ∧
    contrastTextColor "#ffffff" = "#000000" ∧
    contrastTextColor "#000000" = "#ffffff" :=
  ⟨lookup_map_value (bgRows levels j) contrastTextColor k, contrast_white, contrast_black⟩

/-- Witness for C7 at `levels = 4`, bucket 1, status `"filled"`. -/
theorem palette_foreground_contrast_witness :
    (fgRows 4 1).lookup "filled" =
      ((bgRows 4 1).lookup "filled").map contrastTextColor ∧
    contrastTextColor "#ffffff" = "#000000" ∧
    contrastTextColor "#000000" = "#ffffff" :=
  palette_foreground_contrast 4 1 (by norm_num) (by norm_num) "filled"

/-- C6 counterexample: for `levels = 4` and status `"filled"` (base color
`#00ff00`), bucket 1 is `#00aa00`, whose red channel equals — not strictly
undercuts — the red channel of bucket 0, so bucket 1 is not strictly darker
than bucket 0 in every RGB channel. -/
theorem palette_strict_darkening_counterexample :
    (bgRows 4 0).lookup "filled" = some "#00ff00" ∧
    (bgRows 4 1).lookup "filled" = some "#00aa00" ∧
    ¬ strictlyDarker "#00aa00" "#00ff00" := by
  refine ⟨by decide, ?_, by decide⟩
  have h1 : bgRows 4 1 = BG0.map (fun p => (p.1, colorInterp p.2 ((1 : ℚ) / 3))) := by
    simp [bgRows]
  rw [h1]
  have hch : channels "#00ff00" = (0, 255, 0) := channels_00ff00
  simp [List.lookup, BG0, colorInterp, hch]
  rw [show roundHalfEven (0 : ℚ) = 0 from by norm_num [roundHalfEven],
    show roundHalfEven ((255 : ℚ) * (1 - 3⁻¹)) = 170 from by norm_num [roundHalfEven]]
  decide

/-- C6 (amended): for `levels = 4`, bucket 0 is the base palette, bucket 3
is `#000000` for every status, and buckets 1 and 2 are computed per channel
as `round(channel * (1 - j/3))`; they are strictly darker than bucket 0 and
strictly lighter than black in every RGB channel whose base value is
nonzero, while a zero base channel stays exactly zero (so the strict
comparison of the original claim fails only on zero channels). -/
theorem palette_darkening_amended :
    bgRows 4 0 = BG0 ∧
    (∀ p ∈ BG0, (bgRows 4 3).lookup p.1 = some "#000000") ∧
    (∀ p ∈ BG0, ∀ j ∈ ([1, 2] : List ℕ),
      (bgRows 4 j).lookup p.1 = some (colorInterp p.2 ((j : ℚ) / 3)) ∧
      channels (colorInterp p.2 ((j : ℚ) / 3)) =
        ((roundHalfEven (((channels p.2).1 : ℚ) * (1 - (j : ℚ) / 3))).toNat,
         (roundHalfEven (((channels p.2).2.1 : ℚ) * (1 - (j : ℚ) / 3))).toNat,
         (roundHalfEven (((channels p.2).2.2 : ℚ) * (1 - (j : ℚ) / 3))).toNat) ∧
      (0 < (channels p.2).1 →
        0 < (channels (colorInterp p.2 ((j : ℚ) / 3))).1 ∧
          (channels (colorInterp p.2 ((j : ℚ) / 3))).1 < (channels p.2).1) ∧
      ((channels p.2).1 = 0 → (channels (colorInterp p.2 ((j : ℚ) / 3))).1 = 0) ∧
      (0 < (channels p.2).2.1 →
        0 < (channels (colorInterp p.2 ((j : ℚ) / 3))).2.1 ∧
          (channels (colorInterp p.2 ((j : ℚ) / 3))).2.1 < (channels p.2).2.1) ∧
      ((channels p.2).2.1 = 0 → (channels (colorInterp p.2 ((j : ℚ) / 3))).2.1 = 0) ∧
      (0 < (channels p.2).2.2 →
        0 < (channels (colorInterp p.2 ((j : ℚ) / 3))).2.2 ∧
          (channels (colorInterp p.2 ((j : ℚ) / 3))).2.2 < (channels p.2).2.2) ∧
      ((channels p.2).2.2 = 0 → (channels (colorInterp p.2 ((j : ℚ) / 3))).2.2 = 0)) := by
  refine ⟨by simp [bgRows], ?_, ?_⟩
  · intro p hp
    have h1 : bgRows 4 3 = BG0.map (fun q => (q.1, "#000000")) := by
      simp [bgRows]
    rw [h1]
    fin_cases hp <;> decide
  · intro p hp j hj
    have hck : channels (colorInterp p.2 ((j : ℚ) / 3)) =
        ((roundHalfEven (((channels p.2).1 : ℚ) * (1 - (j : ℚ) / 3))).toNat,
         (roundHalfEven (((channels p.2).2.1 : ℚ) * (1 - (j : ℚ) / 3))).toNat,
         (roundHalfEven (((channels p.2).2.2 : ℚ) * (1 - (j : ℚ) / 3))).toNat) := by
      apply channels_colorInterp
      · fin_cases hj <;> norm_num
      · fin_cases hj <;> norm_num
    refine ⟨?_, hck, ?_, ?_, ?_, ?_, ?_, ?_⟩
    · fin_cases hp <;> fin_cases hj <;> simp [bgRows, List.lookup, BG0]
    all_goals
      rw [hck]
      fin_cases hp <;> fin_cases hj <;>
        norm_num [channels_aa55ff, channels_11AAFF, channels_00ff00, channels_fff700,
          channels_ff5555, roundHalfEven]

/-- Witness for the amended C6 at status `"filled"` and bucket 1. -/
theorem palette_darkening_amended_witness :
    (bgRows 4 1).lookup "filled" =
      some (colorInterp "#00ff00" (((1 : ℕ) : ℚ) / 3)) ∧
    channels (colorInterp "#00ff00" (((1 : ℕ) : ℚ) / 3)) =
      ((roundHalfEven (((channels "#00ff00").1 : ℚ) * (1 - ((1 : ℕ) : ℚ) / 3))).toNat,
       (roundHalfEven (((channels "#00ff00").2.1 : ℚ) * (1 - ((1 : ℕ) : ℚ) / 3))).toNat,
       (roundHalfEven (((channels "#00ff00").2.2 : ℚ) * (1 - ((1 : ℕ) : ℚ) / 3))).toNat) ∧
    (0 < (channels "#00ff00").1 →
      0 < (channels (colorInterp "#00ff00" (((1 : ℕ) : ℚ) / 3))).1 ∧
        (channels (colorInterp "#00ff00" (((1 : ℕ) : ℚ) / 3))).1 < (channels "#00ff00").1) ∧
    ((channels "#00ff00").1 = 0 →
      (channels (colorInterp "#00ff00" (((1 : ℕ) : ℚ) / 3))).1 = 0) ∧
    (0 < (channels "#00ff00").2.1 →
      0 < (channels (colorInterp "#00ff00" (((1 : ℕ) : ℚ) / 3))).2.1 ∧
        (channels (colorInterp "#00ff00" (((1 : ℕ) : ℚ) / 3))).2.1 < (channels "#00ff00").2.1) ∧
    ((channels "#00ff00").2.1 = 0 →
      (channels (colorInterp "#00ff00" (((1 : ℕ) : ℚ) / 3))).2.1 = 0) ∧
    (0 < (channels "#00ff00").2.2 →
      0 < (channels (colorInterp "#00ff00" (((1 : ℕ) : ℚ) / 3))).2.2 ∧
        (channels (colorInterp "#00ff00" (((1 : ℕ) : ℚ) / 3))).2.2 < (channels "#00ff00").2.2) ∧
    ((channels "#00ff00").2.2 = 0 →
      (channels (colorInterp "#00ff00" (((1 : ℕ) : ℚ) / 3))).2.2 = 0) :=
  palette_darkening_amended.2.2 ("filled", "#00ff00") (by decide) 1 (by decide)

/-- Contrast color over the base green `#00ff00` is black. -/
theorem contrast_00ff00 : contrastTextColor "#00ff00" = "#000000" := by
  rw [contrastTextColor_eval "#00ff00" '0' '0' 'f' 'f' '0' '0' 149685 rfl
    (by decide) (by decide)]
  norm_num

/-- Contrast color over the faded green `#008000` is white. -/
theorem contrast_008000 : contrastTextColor "#008000" = "#ffffff" := by
  rw [contrastTextColor_eval "#008000" '0' '0' '8' '0' '0' '0' 75136 rfl
    (by decide) (by decide)]
  norm_num

/-- Fading the base green halfway to black gives `#008000` (the green
channel rounds from 127.5 to the even 128). -/
theorem colorInterp_00ff00_half : colorInterp "#00ff00" ((2 : ℚ)⁻¹) = "#008000" := by
  have hch := channels_00ff00
  simp [colorInterp, hch]
  rw [show roundHalfEven (0 : ℚ) = 0 from by norm_num [roundHalfEven],
    show roundHalfEven ((255 : ℚ) * (1 - 2⁻¹)) = 128 from by norm_num [roundHalfEven]]
  decide

/-- A `"filled"` record updated 59 seconds ago lands in bucket 0 and gets
the unfaded base style. -/
theorem row_style_fresh_bucket0 (now : ℚ) (w levels : ℕ) (hl : 2 ≤ levels) :
    rowStyle now ⟨some (now - 59), "filled", w⟩ levels 60 =
      .ok (List.replicate w "background-color:#00ff00;color:#000000") := by
  have hnl : ¬ levels < 2 := by omega
  have hage : now - (now - 59) = (59 : ℚ) := by ring
  have hfl : (⌊(59 : ℚ) / 60⌋ : ℤ) = 0 := by norm_num
  have hb1 : ¬ ((levels : ℤ) ≤ 0) := by
    intro h
    have : (2 : ℤ) ≤ (levels : ℤ) := by exact_mod_cast hl
    omega
  have hnorm : normalizeStatus "filled" = "filled" := by decide
  have hbg : (bgRows levels 0).lookup "filled" = some "#00ff00" := by
    simp [bgRows, List.lookup, BG0]
  have hfg : (fgRows levels 0).lookup "filled" = some "#000000" := by
    rw [fgRows, lookup_map_value, hbg]
    simp [contrast_00ff00]
  simp [rowStyle, createColorRowsDegradation, hnl, hage, hfl, hb1, hnorm, hbg, hfg]

/-- A `"filled"` record updated 61 seconds ago lands in bucket 1 (with the
default `levels = 3`, the half-faded style). -/
theorem row_style_bucket1_61s (now : ℚ) (w : ℕ) :
    rowStyle now ⟨some (now - 61), "filled", w⟩ 3 60 =
      .ok (List.replicate w "background-color:#008000;color:#ffffff") := by
  have hage : now - (now - 61) = (61 : ℚ) := by ring
  have hfl : (⌊(61 : ℚ) / 60⌋ : ℤ) = 1 := by
    rw [Int.floor_eq_iff]
    norm_num
  have hnorm : normalizeStatus "filled" = "filled" := by decide
  have hbg : (bgRows 3 1).lookup "filled" = some "#008000" := by
    have h1 : bgRows 3 1 = BG0.map (fun q => (q.1, colorInterp q.2 ((1 : ℚ) / 2))) := by
      simp [bgRows]
    rw [h1]
    simp [List.lookup, BG0, colorInterp_00ff00_half]
  have hfg : (fgRows 3 1).lookup "filled" = some "#ffffff" := by
    rw [fgRows, lookup_map_value, hbg]
    simp [contrast_008000]
  simp [rowStyle, createColorRowsDegradation, hage, hfl, hnorm, hbg, hfg]

/-- A record older than `levels` windows (bucket at or past `levels`) is
left unstyled. -/
theorem row_style_stale (now t : ℚ) (s : String) (w levels : ℕ) (hl : 2 ≤ levels)
    (hst : (levels : ℚ) * 60 ≤ now - t) :
    rowStyle now ⟨some t, s, w⟩ levels 60 = .ok (List.replicate w "") := by
  have hnl : ¬ levels < 2 := by omega
  have hbk : (levels : ℤ) ≤ ⌊(now - t) / 60⌋ := by
    rw [Int.le_floor]
    rw [le_div_iff₀ (by norm_num)]
    push_cast
    linarith
  simp [rowStyle, createColorRowsDegradation, hnl, hbk]

/-- A record with a missing or unparsable timestamp is left unstyled and the
call still returns. -/
theorem row_style_unparsable (now freshWin : ℚ) (s : String) (w levels : ℕ)
    (hl : 2 ≤ levels) :
    rowStyle now ⟨none, s, w⟩ levels freshWin = .ok (List.replicate w "") := by
  have hnl : ¬ levels < 2 := by omega
  simp [rowStyle, createColorRowsDegradation, hnl]

/-- A record whose normalized status is not a palette key is left unstyled
and the call still returns. -/
theorem row_style_unknown_status (now t : ℚ) (s : String) (w levels : ℕ)
    (hl : 2 ≤ levels) (h0 : 0 ≤ ⌊(now - t) / 60⌋) (hlt : ⌊(now - t) / 60⌋ < (levels : ℤ))
    (hmiss : (bgRows levels (⌊(now - t) / 60⌋).toNat).lookup (normalizeStatus s) = none) :
    rowStyle now ⟨some t, s, w⟩ levels 60 = .ok (List.replicate w "") := by
  have hnl : ¬ levels < 2 := by omega
  have hb1 : ¬ ((levels : ℤ) ≤ ⌊(now - t) / 60⌋) := by omega
  have hb2 : ¬ (⌊(now - t) / 60⌋ < 0) := by omega
  simp [rowStyle, createColorRowsDegradation, hnl, hb1, hb2, hmiss]

/-- C8: with `fresh_window_seconds = 60` the row styler assigns bucket
`floor(age / 60)`: a record updated 59 s ago gets bucket 0 (base style), one
updated 61 s ago gets bucket 1, one older than `levels` windows gets no
styling, and a record with a missing/unparsable timestamp or a status key
outside the palette gets no styling — each of these cases returns normally
instead of raising. -/
theorem row_style_aging :
    (∀ (now : ℚ) (w levels : ℕ), 2 ≤ levels →
      rowStyle now ⟨some (now - 59), "filled", w⟩ levels 60 =
        .ok (List.replicate w "background-color:#00ff00;color:#000000")) ∧
    (∀ (now : ℚ) (w : ℕ),
      rowStyle now ⟨some (now - 61), "filled", w⟩ 3 60 =
        .ok (List.replicate w "background-color:#008000;color:#ffffff")) ∧
    (∀ (now t : ℚ) (s : String) (w levels : ℕ), 2 ≤ levels →
      (levels : ℚ) * 60 ≤ now - t →
      rowStyle now ⟨some t, s, w⟩ levels 60 = .ok (List.replicate w "")) ∧
    (∀ (now freshWin : ℚ) (s : String) (w levels : ℕ), 2 ≤ levels →
      rowStyle now ⟨none, s, w⟩ levels freshWin = .ok (List.replicate w "")) ∧
    (∀ (now t : ℚ) (s : String) (w levels : ℕ), 2 ≤ levels →
      0 ≤ ⌊(now - t) / 60⌋ → ⌊(now - t) / 60⌋ < (levels : ℤ) →
      (bgRows levels (⌊(now - t) / 60⌋).toNat).lookup (normalizeStatus s) = none →
      rowStyle now ⟨some t, s, w⟩ levels 60 = .ok (List.replicate w "")) :=
  ⟨row_style_fresh_bucket0, row_style_bucket1_61s, row_style_stale,
    row_style_unparsable, row_style_unknown_status⟩

/-- Witness for C8: an unparsable timestamp on a two-cell row with two
levels yields the unstyled row without an exception. -/
theorem row_style_aging_witness :
    rowStyle 0 ⟨none, "filled", 2⟩ 2 60 = .ok (List.replicate 2 "") :=
  row_style_aging.2.2.2.1 0 60 "filled" 2 2 (by norm_num)

end Colors

open ColorDefs


theorem BG0_lookup_agree (k : String) (hk : k ≠ "partially_canceled") :
    Colors.BG0.lookup k = RowColors.BG0.lookup k := by
  by_cases h1 : k = "new"
  · subst h1; decide
  by_cases h2 : k = "partially_filled"
  · subst h2; decide
  by_cases h3 : k = "filled"
  · subst h3; decide
  by_cases h4 : k = "canceled"
  · subst h4; decide
  by_cases h5 : k = "rejected"
  · subst h5; decide
  by_cases h6 : k = "expired"
  · subst h6; decide
  have e1 : (k == "new") = false := beq_eq_false_iff_ne.mpr h1
  have e2 : (k == "partially_filled") = false := beq_eq_false_iff_ne.mpr h2
  have e3 : (k == "filled") = false := beq_eq_false_iff_ne.mpr h3
  have e4 : (k == "canceled") = false := beq_eq_false_iff_ne.mpr h4
  have e5 : (k == "rejected") = false := beq_eq_false_iff_ne.mpr h5
  have e6 : (k == "expired") = false := beq_eq_false_iff_ne.mpr h6
  have e7 : (k == "partially_canceled") = false := beq_eq_false_iff_ne.mpr hk
  have hc : Colors.BG0.lookup k = none := by
    simp [Colors.BG0, List.lookup, e1, e2, e3, e4, e5, e6, e7]
  have hr : RowColors.BG0.lookup k = none := by
    simp [RowColors.BG0, List.lookup, e1, e2, e3, e4, e5, e6, e7]
  rw [hc, hr]

theorem lookup_map_const {β γ : Type} (l : List (String × β)) (c : γ) (k : String) :
    (l.map (fun p => (p.1, c))).lookup k = (l.lookup k).map (fun _ => c) :=
  lookup_map_value l (fun _ => c) k

theorem lookup_map_interp (l : List (String × String)) (t : ℚ) (k : String) :
    (l.map (fun p => (p.1, colorInterp p.2 t))).lookup k =
      (l.lookup k).map (fun c => colorInterp c t) :=
  lookup_map_value l (fun c => colorInterp c t) k

theorem lookup_map_contrast (l : List (String × String)) (k : String) :
    (l.map (fun p => (p.1, contrastTextColor p.2))).lookup k =
      (l.lookup k).map contrastTextColor :=
  lookup_map_value l contrastTextColor k

theorem bgRows_agree (levels j : ℕ) (k : String) (hk : k ≠ "partially_canceled") :
    (Colors.bgRows levels j).lookup k = (RowColors.bgRows levels j).lookup k := by
  unfold Colors.bgRows RowColors.bgRows
  split_ifs
  · exact BG0_lookup_agree k hk
  · rw [lookup_map_const, lookup_map_const, BG0_lookup_agree k hk]
  · rw [lookup_map_interp, lookup_map_interp, BG0_lookup_agree k hk]

theorem fgRows_agree (levels j : ℕ) (k : String) (hk : k ≠ "partially_canceled") :
    (Colors.fgRows levels j).lookup k = (RowColors.fgRows levels j).lookup k := by
  unfold Colors.fgRows RowColors.fgRows
  rw [lookup_map_contrast, lookup_map_contrast, bgRows_agree levels j k hk]

theorem rowStyle_agree (now : ℚ) (row : Row) (levels : ℕ) (freshWin : ℚ)
    (hk : normalizeStatus row.status ≠ "partially_canceled") :
    Colors.rowStyle now row levels freshWin = RowColors.rowStyle now row levels freshWin := by
  by_cases hnl : levels < 2
  · simp [Colors.rowStyle, RowColors.rowStyle, Colors.createColorRowsDegradation,
      RowColors.createColorRowsDegradation, hnl]
  cases hup : row.updated with
  | none =>
    simp [Colors.rowStyle, RowColors.rowStyle, Colors.createColorRowsDegradation,
      RowColors.createColorRowsDegradation, hnl, hup]
  | some t =>
    by_cases hb1 : (levels : ℤ) ≤ ⌊(now - t) / freshWin⌋
    · simp [Colors.rowStyle, RowColors.rowStyle, Colors.createColorRowsDegradation,
        RowColors.createColorRowsDegradation, hnl, hup, hb1]
    by_cases hb2 : ⌊(now - t) / freshWin⌋ < 0
    · simp [Colors.rowStyle, RowColors.rowStyle, Colors.createColorRowsDegradation,
        RowColors.createColorRowsDegradation, hnl, hup, hb1, hb2]
    have hbg := bgRows_agree levels (⌊(now - t) / freshWin⌋).toNat
      (normalizeStatus row.status) hk
    have hfg := fgRows_agree levels (⌊(now - t) / freshWin⌋).toNat
      (normalizeStatus row.status) hk
    simp only [Colors.rowStyle, RowColors.rowStyle, Colors.createColorRowsDegradation,
      RowColors.createColorRowsDegradation, if_neg hnl, hup, if_neg hb1, if_neg hb2]
    rw [hbg, hfg]
    cases hfgv : (RowColors.fgRows levels (⌊(now - t) / freshWin⌋).toNat).lookup
        (normalizeStatus row.status) <;>
      simp [Option.getD]


theorem contrast_fff700 : contrastTextColor "#fff700" = "#000000" := by
  rw [contrastTextColor_eval "#fff700" 'f' 'f' 'f' '7' '0' '0' 221234 rfl
    (by decide) (by decide)]
  norm_num

theorem contrast_ff5555 : contrastTextColor "#ff5555" = "#000000" := by
  rw [contrastTextColor_eval "#ff5555" 'f' 'f' '5' '5' '5' '5' 135830 rfl
    (by decide) (by decide)]
  norm_num

theorem colors_row_style_pc :
    Colors.rowStyle 0 ⟨some 0, "partially_canceled", 1⟩ 4 60 =
      .ok ["background-color:#fff700;color:#000000"] := by
  have hfl : (⌊((0 : ℚ) - 0) / 60⌋ : ℤ) = 0 := by norm_num
  have hnorm : normalizeStatus "partially_canceled" = "partially_canceled" := by decide
  have hbg : (Colors.bgRows 4 0).lookup "partially_canceled" = some "#fff700" := by
    simp [Colors.bgRows, List.lookup, Colors.BG0]
  have hfg : (Colors.fgRows 4 0).lookup "partially_canceled" = some "#000000" := by
    rw [Colors.fgRows, lookup_map_contrast, hbg]
    simp [contrast_fff700]
  simp [Colors.rowStyle, Colors.createColorRowsDegradation, hfl, hnorm, hbg, hfg]

theorem rowcolors_row_style_pc :
    RowColors.rowStyle 0 ⟨some 0, "partially_canceled", 1⟩ 4 60 =
      .ok ["background-color:#ff5555;color:#000000"] := by
  have hfl : (⌊((0 : ℚ) - 0) / 60⌋ : ℤ) = 0 := by norm_num
  have hnorm : normalizeStatus "partially_canceled" = "partially_canceled" := by decide
  have hbg : (RowColors.bgRows 4 0).lookup "partially_canceled" = some "#ff5555" := by
    simp [RowColors.bgRows, List.lookup, RowColors.BG0]
  have hfg : (RowColors.fgRows 4 0).lookup "partially_canceled" = some "#000000" := by
    rw [RowColors.fgRows, lookup_map_contrast, hbg]
    simp [contrast_ff5555]
  simp [RowColors.rowStyle, RowColors.createColorRowsDegradation, hfl, hnorm, hbg, hfg] <;>
    decide

theorem row_colors_divergence_counterexample :
    Colors.BG0.lookup "partially_canceled" = some "#fff700" ∧
    RowColors.BG0.lookup "partially_canceled" = some "#ff5555" ∧
    (Colors.bgRows 4 0).lookup "partially_canceled" ≠
      (RowColors.bgRows 4 0).lookup "partially_canceled" ∧
    Colors.rowStyle 0 ⟨some 0, "partially_canceled", 1⟩ 4 60 ≠
      RowColors.rowStyle 0 ⟨some 0, "partially_canceled", 1⟩ 4 60 := by
  refine ⟨by decide, by decide, by decide, ?_⟩
  rw [colors_row_style_pc, rowcolors_row_style_pc]
  intro h
  rw [Except.ok.injEq] at h
  exact absurd h (by decide)

/-- C10 (amended): the two copies of the engine agree on every status key
other than `"partially_canceled"` — same base palette entries, same
background and foreground palette rows for every `levels` and bucket, and
the same style strings for every row — while at `"partially_canceled"` the
`_colors.py` base palette is yellow `#fff700` and the `_row_colors.py` one
is red `#ff5555`. -/
theorem row_colors_engines_agree_amended :
    (∀ k, k ≠ "partially_canceled" → Colors.BG0.lookup k = RowColors.BG0.lookup k) ∧
    (∀ levels j k, k ≠ "partially_canceled" →
      (Colors.bgRows levels j).lookup k = (RowColors.bgRows levels j).lookup k ∧
      (Colors.fgRows levels j).lookup k = (RowColors.fgRows levels j).lookup k) ∧
    (∀ (now : ℚ) (row : Row) (levels : ℕ) (freshWin : ℚ),
      normalizeStatus row.status ≠ "partially_canceled" →
      Colors.rowStyle now row levels freshWin =
        RowColors.rowStyle now row levels freshWin) ∧
    Colors.BG0.lookup "partially_canceled" = some "#fff700" ∧
    RowColors.BG0.lookup "partially_canceled" = some "#ff5555" :=
  ⟨BG0_lookup_agree,
   fun levels j k hk => ⟨bgRows_agree levels j k hk, fgRows_agree levels j k hk⟩,
   rowStyle_agree, by decide, by decide⟩

/-- Witness for the amended C10: both row stylers give the same style to a
fresh `"filled"` row. -/
theorem row_colors_engines_agree_amended_witness :
    Colors.rowStyle 0 ⟨some 0, "filled", 1⟩ 3 60 =
      RowColors.rowStyle 0 ⟨some 0, "filled", 1⟩ 3 60 :=
  row_colors_engines_agree_amended.2.2.1 0 ⟨some 0, "filled", 1⟩ 3 60 (by decide)

namespace Format
/-- `log10Floor` really is the floor of the base-10 logarithm: the unique
exponent `e` with `10 ^ e ≤ q < 10 ^ (e + 1)`. -/
theorem log10Floor_spec (q : ℚ) (hq : 0 < q) :
    (10 : ℚ) ^ log10Floor q ≤ q ∧ q < (10 : ℚ) ^ (log10Floor q + 1) := by
  have hnum : 0 < q.num := Rat.num_pos.mpr hq
  have ha0 : q.num.natAbs ≠ 0 := Int.natAbs_ne_zero.mpr (by omega)
  have hb0 : q.den ≠ 0 := q.den_nz
  have hcastnum : ((q.num.natAbs : ℕ) : ℚ) = (q.num : ℚ) := by
    rw [Int.cast_natAbs, abs_of_pos hnum]
  have hq_eq : q = ((q.num.natAbs : ℕ) : ℚ) / ((q.den : ℕ) : ℚ) := by
    rw [hcastnum]
    exact (Rat.num_div_den q).symm
  set a := q.num.natAbs with ha
  set b := q.den with hb
  set la := Nat.log 10 a with hla
  set lb := Nat.log 10 b with hlb
  have hpa : (10 : ℚ) ^ (la : ℕ) ≤ (a : ℚ) := by
    exact_mod_cast Nat.pow_log_le_self 10 ha0
  have hpa2 : (a : ℚ) < (10 : ℚ) ^ (la + 1 : ℕ) := by
    exact_mod_cast Nat.lt_pow_succ_log_self (by norm_num) a
  have hpb : (10 : ℚ) ^ (lb : ℕ) ≤ (b : ℚ) := by
    exact_mod_cast Nat.pow_log_le_self 10 hb0
  have hpb2 : (b : ℚ) < (10 : ℚ) ^ (lb + 1 : ℕ) := by
    exact_mod_cast Nat.lt_pow_succ_log_self (by norm_num) b
  have hapos : (0 : ℚ) < (a : ℚ) := by
    have : 0 < a := Nat.pos_of_ne_zero ha0
    exact_mod_cast this
  have hbpos : (0 : ℚ) < (b : ℚ) := by
    have : 0 < b := q.pos
    exact_mod_cast this
  have hzpow_nat : ∀ n : ℕ, (10 : ℚ) ^ (n : ℤ) = (10 : ℚ) ^ (n : ℕ) := fun n =>
    zpow_natCast 10 n
  have hupper : q < (10 : ℚ) ^ ((la : ℤ) - (lb : ℤ) + 1) := by
    have h1 : (a : ℚ) / (b : ℚ) < (10 : ℚ) ^ (la + 1 : ℕ) / (10 : ℚ) ^ (lb : ℕ) :=
      div_lt_div₀ hpa2 hpb (by positivity) (by positivity)
    have h2 : (10 : ℚ) ^ ((la : ℤ) - (lb : ℤ) + 1) =
        (10 : ℚ) ^ (la + 1 : ℕ) / (10 : ℚ) ^ (lb : ℕ) := by
      rw [show (la : ℤ) - (lb : ℤ) + 1 = ((la + 1 : ℕ) : ℤ) - ((lb : ℕ) : ℤ) by push_cast; ring]
      rw [zpow_sub₀ (by norm_num : (10 : ℚ) ≠ 0), hzpow_nat, hzpow_nat]
    rw [h2, hq_eq]
    exact h1
  have hlower : (10 : ℚ) ^ ((la : ℤ) - (lb : ℤ) - 1) < q := by
    have h1 : (10 : ℚ) ^ (la : ℕ) / (10 : ℚ) ^ (lb + 1 : ℕ) < (a : ℚ) / (b : ℚ) :=
      div_lt_div₀' hpa hpb2 hapos hbpos
    have h2 : (10 : ℚ) ^ ((la : ℤ) - (lb : ℤ) - 1) =
        (10 : ℚ) ^ (la : ℕ) / (10 : ℚ) ^ (lb + 1 : ℕ) := by
      rw [show (la : ℤ) - (lb : ℤ) - 1 = ((la : ℕ) : ℤ) - ((lb + 1 : ℕ) : ℤ) by push_cast; ring]
      rw [zpow_sub₀ (by norm_num : (10 : ℚ) ≠ 0), hzpow_nat, hzpow_nat]
    rw [h2, hq_eq]
    exact h1
  simp only [log10Floor, ← ha, ← hb, ← hla, ← hlb]
  split_ifs with h
  · exact ⟨h, hupper⟩
  · constructor
    · exact hlower.le
    · rw [sub_add_cancel]
      exact not_le.mp h



/-- Uniqueness of the floor exponent. -/
theorem log10Floor_eq (q : ℚ) (e : ℤ) (hq : 0 < q)
    (h1 : (10 : ℚ) ^ e ≤ q) (h2 : q < (10 : ℚ) ^ (e + 1)) : log10Floor q = e := by
  obtain ⟨hl, hu⟩ := log10Floor_spec q hq
  by_contra hne
  rcases lt_or_gt_of_ne hne with hlt | hgt
  · have : (10 : ℚ) ^ (log10Floor q + 1) ≤ (10 : ℚ) ^ e := by
      apply zpow_le_zpow_right₀ (by norm_num) (by omega)
    linarith
  · have : (10 : ℚ) ^ (e + 1) ≤ (10 : ℚ) ^ (log10Floor q) := by
      apply zpow_le_zpow_right₀ (by norm_num) (by omega)
    linarith

/-- A decimal digit character is never the decimal point. -/
theorem digitChar_ne_dot (m : ℕ) (hm : m < 10) : Nat.digitChar m ≠ '.' := by
  interval_cases m <;> decide

/-- `Nat.digitChar` of a decimal digit is a digit character. -/
theorem digitChar_isDigit (m : ℕ) (hm : m < 10) : (Nat.digitChar m).isDigit = true := by
  interval_cases m <;> decide

/-- The digit rendering of a natural number never contains a dot. -/
theorem dot_not_mem_natDigits (n : ℕ) : '.' ∉ natDigits n := by
  induction n using Nat.strong_induction_on with
  | _ n ih =>
    rw [natDigits]
    split_ifs with h
    · intro hmem
      simp only [List.mem_singleton] at hmem
      exact digitChar_ne_dot n h hmem.symm
    · intro hmem
      rw [List.mem_append] at hmem
      rcases hmem with hm | hm
      · exact ih (n / 10) (Nat.div_lt_self (by omega) (by norm_num)) hm
      · simp only [List.mem_singleton] at hm
        exact digitChar_ne_dot (n % 10) (Nat.mod_lt _ (by norm_num)) hm.symm

/-- Zero-padded rendering has exactly the requested width. -/
theorem padDigits_length (d n : ℕ) : (padDigits d n).length = d := by
  induction d generalizing n with
  | zero => rfl
  | succ d ih => simp [padDigits, ih]

/-- Zero-padded rendering consists of digit characters only. -/
theorem padDigits_all_digits (d n : ℕ) : (padDigits d n).all Char.isDigit = true := by
  induction d generalizing n with
  | zero => rfl
  | succ d ih =>
    simp [padDigits, ih, digitChar_isDigit (n % 10) (Nat.mod_lt _ (by norm_num))]

/-- Grouping only inserts commas; every other character comes from the
input. -/
theorem mem_groupAuxRev (l : List Char) (c : Char) (h : c ∈ groupAuxRev l) :
    c ∈ l ∨ c = ',' := by
  induction l using groupAuxRev.induct with
  | case1 a b d e rest ih =>
    rw [groupAuxRev] at h
    simp only [List.mem_cons] at h ⊢
    rcases h with rfl | rfl | rfl | rfl | h
    · exact Or.inl (Or.inl rfl)
    · exact Or.inl (Or.inr (Or.inl rfl))
    · exact Or.inl (Or.inr (Or.inr (Or.inl rfl)))
    · exact Or.inr rfl
    · rcases ih h with hm | hm
      · simp only [List.mem_cons] at hm
        rcases hm with rfl | hm
        · exact Or.inl (Or.inr (Or.inr (Or.inr (Or.inl rfl))))
        · exact Or.inl (Or.inr (Or.inr (Or.inr (Or.inr hm))))
      · exact Or.inr hm
  | case2 l hshape =>
    have heq : groupAuxRev l = l := by
      rw [groupAuxRev]
      exact hshape
    rw [heq] at h
    exact Or.inl h

/-- Thousands grouping never introduces a dot. -/
theorem dot_not_mem_groupDigits (l : List Char) (h : '.' ∉ l) : '.' ∉ groupDigits l := by
  intro hmem
  rw [groupDigits, List.mem_reverse] at hmem
  rcases mem_groupAuxRev _ _ hmem with hm | hm
  · exact h (List.mem_reverse.mp hm)
  · exact absurd hm (by decide)

/-- A fixed-point rendering with `d ≥ 1` decimals splits into an integer
part without a dot, the decimal point, and exactly `d` digit characters. -/
theorem fmtFixed_decomp (q : ℚ) (d : ℕ) (sep : Bool) (hd : d ≠ 0) :
    ∃ s t, fmtFixed q d sep = s ++ '.' :: t ∧ t.length = d ∧
      t.all Char.isDigit = true ∧ '.' ∉ s := by
  refine ⟨if sep then groupDigits (natDigits ((roundHalfEven (q * 10 ^ d)).toNat / 10 ^ d))
      else natDigits ((roundHalfEven (q * 10 ^ d)).toNat / 10 ^ d),
    padDigits d ((roundHalfEven (q * 10 ^ d)).toNat % 10 ^ d), ?_,
    padDigits_length d _, padDigits_all_digits d _, ?_⟩
  · simp only [fmtFixed, hd, if_false]
  · cases sep
    · simpa using dot_not_mem_natDigits _
    · simpa using dot_not_mem_groupDigits _ (dot_not_mem_natDigits _)



/-- For `|v| ≥ 1` the rendering has exactly two digits after the single
decimal point. -/
theorem format_ge_one (v : ℚ) (hv : v ≠ 0) (h1 : 1 ≤ |v|) :
    ∃ s t, (formatSignificantFloat (some v) none).data = s ++ '.' :: t ∧
      t.length = 2 ∧ t.all Char.isDigit = true ∧ '.' ∉ s := by
  obtain ⟨s, t, heq, hlen, hdig, hdot⟩ := fmtFixed_decomp |v| 2 true (by norm_num)
  by_cases hneg : v < 0
  · refine ⟨'-' :: s, t, ?_, hlen, hdig, ?_⟩
    · simp only [formatSignificantFloat, if_neg hv, if_pos h1, if_pos hneg]
      rw [heq]
      rfl
    · intro hc
      simp only [List.mem_cons] at hc
      rcases hc with hc | hc
      · exact absurd hc (by decide)
      · exact hdot hc
  · refine ⟨s, t, ?_, hlen, hdig, hdot⟩
    simp only [formatSignificantFloat, if_neg hv, if_pos h1, if_neg hneg]
    rw [heq]

/-- A value in `(0, 1)` has a negative floor exponent. -/
theorem log10Floor_neg_of_lt_one (v : ℚ) (h0 : 0 < v) (h1 : v < 1) :
    log10Floor v ≤ -1 := by
  obtain ⟨hl, _⟩ := log10Floor_spec v h0
  by_contra hc
  push_neg at hc
  have he : (0 : ℤ) ≤ log10Floor v := by omega
  have : (1 : ℚ) ≤ (10 : ℚ) ^ log10Floor v := one_le_zpow₀ (by norm_num) he
  linarith

/-- For `0 < |v| < 1` the rendering has exactly
`2 - floor(log10 |v|) - 1 ≥ 2` digits after the single decimal point. -/
theorem format_lt_one (v : ℚ) (hv : v ≠ 0) (h1 : |v| < 1) :
    ∃ s t, (formatSignificantFloat (some v) none).data = s ++ '.' :: t ∧
      t.length = (2 - log10Floor |v| - 1).toNat ∧ 2 ≤ t.length ∧
      t.all Char.isDigit = true ∧ '.' ∉ s := by
  have habs : (0 : ℚ) < |v| := abs_pos.mpr hv
  have hexp := log10Floor_neg_of_lt_one |v| habs h1
  have hd0 : (2 - log10Floor |v| - 1).toNat ≠ 0 := by omega
  have hd2 : 2 ≤ (2 - log10Floor |v| - 1).toNat := by omega
  obtain ⟨s, t, heq, hlen, hdig, hdot⟩ :=
    fmtFixed_decomp |v| (2 - log10Floor |v| - 1).toNat false hd0
  have hnl : ¬ (1 ≤ |v|) := not_le.mpr h1
  by_cases hneg : v < 0
  · refine ⟨'-' :: s, t, ?_, hlen, hlen ▸ hd2, hdig, ?_⟩
    · simp only [formatSignificantFloat, if_neg hv, if_neg hnl, if_pos hneg]
      rw [heq]
      rfl
    · intro hc
      simp only [List.mem_cons] at hc
      rcases hc with hc | hc
      · exact absurd hc (by decide)
      · exact hdot hc
  · refine ⟨s, t, ?_, hlen, hlen ▸ hd2, hdig, hdot⟩
    simp only [formatSignificantFloat, if_neg hv, if_neg hnl, if_neg hneg]
    rw [heq]

/-- The sign is attached as a `-` prefix after formatting the magnitude. -/
theorem format_neg (v : ℚ) (hv : v < 0) :
    formatSignificantFloat (some v) none = "-" ++ formatSignificantFloat (some (-v)) none := by
  have hv0 : v ≠ 0 := ne_of_lt hv
  have hnv0 : -v ≠ 0 := neg_ne_zero.mpr hv0
  have hnneg : ¬ (-v < 0) := not_lt.mpr (by linarith)
  simp only [formatSignificantFloat, if_neg hv0, if_neg hnv0, if_pos hv, if_neg hnneg,
    abs_neg]
  rfl



/-- `format(0.006565) = "0.0066"`. -/
theorem format_example_0066 :
    formatSignificantFloat (some (6565 / 1000000)) none = "0.0066" := by
  have hne : (6565 / 1000000 : ℚ) ≠ 0 := by norm_num
  have hpos : (0 : ℚ) < 6565 / 1000000 := by norm_num
  have habs : |(6565 / 1000000 : ℚ)| = 6565 / 1000000 := abs_of_pos hpos
  have hnlt : ¬ (1 ≤ (6565 / 1000000 : ℚ)) := by norm_num
  have hnneg : ¬ ((6565 / 1000000 : ℚ) < 0) := by norm_num
  have he : log10Floor (6565 / 1000000 : ℚ) = -3 := by
    apply log10Floor_eq _ _ hpos
    · rw [show ((-3 : ℤ)) = -(3 : ℕ) by norm_num, zpow_neg, zpow_natCast]
      norm_num
    · rw [show ((-3 : ℤ) + 1) = -(2 : ℕ) by norm_num, zpow_neg, zpow_natCast]
      norm_num
  have hround : roundHalfEven ((6565 / 1000000 : ℚ) * 10 ^ (4 : ℕ)) = 66 := by
    norm_num [roundHalfEven]
  have hd : ((2 : ℤ) - (-3) - 1).toNat = 4 := by decide
  have hnd : natDigits 0 = ['0'] := by
    rw [natDigits]
    decide
  have hpd : padDigits 4 66 = ['0', '0', '6', '6'] := by decide
  simp only [formatSignificantFloat, if_neg hne, habs, if_neg hnlt, if_neg hnneg, he, hd]
  simp only [fmtFixed, hround]
  rw [show ((66 : ℤ).toNat) = 66 from rfl,
    show (66 : ℕ) / 10 ^ 4 = 0 from by norm_num,
    show (66 : ℕ) % 10 ^ 4 = 66 from by norm_num, hnd, hpd]
  decide


/-- `format(-0.06565) = "-0.066"`. -/
theorem format_example_neg066 :
    formatSignificantFloat (some (-6565 / 100000)) none = "-0.066" := by
  have hne : (-6565 / 100000 : ℚ) ≠ 0 := by norm_num
  have habs : |(-6565 / 100000 : ℚ)| = 6565 / 100000 := by
    rw [show (-6565 / 100000 : ℚ) = -(6565 / 100000) by norm_num, abs_neg]
    exact abs_of_pos (by norm_num)
  have hnlt : ¬ (1 ≤ (6565 / 100000 : ℚ)) := by norm_num
  have hneg : (-6565 / 100000 : ℚ) < 0 := by norm_num
  have he : log10Floor (6565 / 100000 : ℚ) = -2 := by
    apply log10Floor_eq _ _ (by norm_num)
    · rw [show ((-2 : ℤ)) = -(2 : ℕ) by norm_num, zpow_neg, zpow_natCast]
      norm_num
    · rw [show ((-2 : ℤ) + 1) = -(1 : ℕ) by norm_num, zpow_neg, zpow_natCast]
      norm_num
  have hround : roundHalfEven ((6565 / 100000 : ℚ) * 10 ^ (3 : ℕ)) = 66 := by
    norm_num [roundHalfEven]
  have hd : ((2 : ℤ) - (-2) - 1).toNat = 3 := by decide
  have hnd : natDigits 0 = ['0'] := by
    rw [natDigits]
    decide
  have hpd : padDigits 3 66 = ['0', '6', '6'] := by decide
  simp only [formatSignificantFloat, if_neg hne, habs, if_neg hnlt, if_pos hneg, he, hd]
  simp only [fmtFixed, hround]
  rw [show ((66 : ℤ).toNat) = 66 from rfl,
    show (66 : ℕ) / 10 ^ 3 = 0 from by norm_num,
    show (66 : ℕ) % 10 ^ 3 = 66 from by norm_num, hnd, hpd]
  decide

/-- `format(0.0006565) = "0.00066"`. -/
theorem format_example_00066 :
    formatSignificantFloat (some (6565 / 10000000)) none = "0.00066" := by
  have hne : (6565 / 10000000 : ℚ) ≠ 0 := by norm_num
  have hpos : (0 : ℚ) < 6565 / 10000000 := by norm_num
  have habs : |(6565 / 10000000 : ℚ)| = 6565 / 10000000 := abs_of_pos hpos
  have hnlt : ¬ (1 ≤ (6565 / 10000000 : ℚ)) := by norm_num
  have hnneg : ¬ ((6565 / 10000000 : ℚ) < 0) := by norm_num
  have he : log10Floor (6565 / 10000000 : ℚ) = -4 := by
    apply log10Floor_eq _ _ hpos
    · rw [show ((-4 : ℤ)) = -(4 : ℕ) by norm_num, zpow_neg, zpow_natCast]
      norm_num
    · rw [show ((-4 : ℤ) + 1) = -(3 : ℕ) by norm_num, zpow_neg, zpow_natCast]
      norm_num
  have hround : roundHalfEven ((6565 / 10000000 : ℚ) * 10 ^ (5 : ℕ)) = 66 := by
    norm_num [roundHalfEven]
  have hd : ((2 : ℤ) - (-4) - 1).toNat = 5 := by decide
  have hnd : natDigits 0 = ['0'] := by
    rw [natDigits]
    decide
  have hpd : padDigits 5 66 = ['0', '0', '0', '6', '6'] := by decide
  simp only [formatSignificantFloat, if_neg hne, habs, if_neg hnlt, if_neg hnneg, he, hd]
  simp only [fmtFixed, hround]
  rw [show ((66 : ℤ).toNat) = 66 from rfl,
    show (66 : ℕ) / 10 ^ 5 = 0 from by norm_num,
    show (66 : ℕ) % 10 ^ 5 = 66 from by norm_num, hnd, hpd]
  decide

/-- `format(1234.6565) = "1,234.66"`: thousands separators and two
decimals for values at least one. -/
theorem format_example_thousands :
    formatSignificantFloat (some (12346565 / 10000)) none = "1,234.66" := by
  have hne : (12346565 / 10000 : ℚ) ≠ 0 := by norm_num
  have hpos : (0 : ℚ) < 12346565 / 10000 := by norm_num
  have habs : |(12346565 / 10000 : ℚ)| = 12346565 / 10000 := abs_of_pos hpos
  have hge : (1 : ℚ) ≤ 12346565 / 10000 := by norm_num
  have hnneg : ¬ ((12346565 / 10000 : ℚ) < 0) := by norm_num
  have hround : roundHalfEven ((12346565 / 10000 : ℚ) * 10 ^ (2 : ℕ)) = 123466 := by
    norm_num [roundHalfEven]
  have hnd : natDigits 1234 = ['1', '2', '3', '4'] := by
    simp [natDigits]
    decide
  have hgd : groupDigits ['1', '2', '3', '4'] = ['1', ',', '2', '3', '4'] := by decide
  have hpd : padDigits 2 66 = ['6', '6'] := by decide
  simp only [formatSignificantFloat, if_neg hne, habs, if_pos hge, if_neg hnneg]
  simp only [fmtFixed, hround]
  rw [show ((123466 : ℤ).toNat) = 123466 from rfl,
    show (123466 : ℕ) / 10 ^ 2 = 1234 from by norm_num,
    show (123466 : ℕ) % 10 ^ 2 = 66 from by norm_num, hnd, hgd, hpd]
  decide



/-- C4: a non-null, nonzero value with `|v| ≥ 1` renders with exactly two
digits after the decimal point (with thousands separators, as in
`1234.6565 → "1,234.66"`), a value with `0 < |v| < 1` renders with exactly
`2 - floor(log10 |v|) - 1` digits after the point (the first two
significant digits; `log10Floor` is proved to be the floor of `log10`),
the sign is preserved as a `-` prefix applied after magnitude formatting,
and the spec examples `0.006565 → "0.0066"`, `-0.06565 → "-0.066"`,
`0.0006565 → "0.00066"` hold. -/
theorem format_significant_spec :
    (∀ v : ℚ, v ≠ 0 → 1 ≤ |v| →
      ∃ s t, (formatSignificantFloat (some v) none).data = s ++ '.' :: t ∧
        t.length = 2 ∧ t.all Char.isDigit = true ∧ '.' ∉ s) ∧
    (∀ v : ℚ, v ≠ 0 → |v| < 1 →
      ∃ s t, (formatSignificantFloat (some v) none).data = s ++ '.' :: t ∧
        t.length = (2 - log10Floor |v| - 1).toNat ∧ 2 ≤ t.length ∧
        t.all Char.isDigit = true ∧ '.' ∉ s) ∧
    (∀ v : ℚ, 0 < v → (10 : ℚ) ^ log10Floor v ≤ v ∧ v < (10 : ℚ) ^ (log10Floor v + 1)) ∧
    (∀ v : ℚ, v < 0 →
      formatSignificantFloat (some v) none = "-" ++ formatSignificantFloat (some (-v)) none) ∧
    formatSignificantFloat (some (6565 / 1000000)) none = "0.0066" ∧
    formatSignificantFloat (some (-6565 / 100000)) none = "-0.066" ∧
    formatSignificantFloat (some (6565 / 10000000)) none = "0.00066" ∧
    formatSignificantFloat (some (12346565 / 10000)) none = "1,234.66" :=
  ⟨format_ge_one, format_lt_one, log10Floor_spec, format_neg,
   format_example_0066, format_example_neg066, format_example_00066,
   format_example_thousands⟩

/-- Witness for C4 at `v = 3/2`. -/
theorem format_significant_spec_witness :
    ∃ s t, (formatSignificantFloat (some (3 / 2)) none).data = s ++ '.' :: t ∧
      t.length = 2 ∧ t.all Char.isDigit = true ∧ '.' ∉ s :=
  format_significant_spec.1 (3 / 2) (by norm_num)
    (by rw [abs_of_pos (by norm_num : (0 : ℚ) < 3 / 2)]; norm_num)

end Format

end MockexchangeDeck
